/-
Verification of the ufc-prediction-api core algorithms.

Shallow embedding of:
  app/data_pipeline/snapshot_calculator.py  (point-in-time snapshots)
  app/prediction_engine/predictor.py        (rule-based predictor)
  app/prediction_engine/weights.py          (default weights)
  app/data_pipeline/transformers.py         (name similarity, Deduplicator)
  app/data_pipeline/import_service.py       (run_import transaction shape)
  app/data_pipeline/adapters/ufc.py         (_parse_fight_card postprocessing)

Python floats are modelled as exact rationals (ℚ), dates as day
ordinals (Nat), database rows as explicit lists, and the mutable loops
as folds threading an explicit state.
-/
import Mathlib

namespace UFCPred

/-! ## Character/string helpers shared by several modules

Python's `in` on strings, `.lower()`, `.strip()` and `.split()` are
modelled on `List Char`.  All inputs in this development are ASCII, so
`Char.toLower` agrees with Python's `str.lower`. -/

/-- Does `pat` occur at the start of `txt`? (helper for substring search). -/
def seg_starts_with : List Char → List Char → Bool
  | [], _ => true
  | _ :: _, [] => false
  | a :: as, b :: bs => a == b && seg_starts_with as bs

/-- Python's `pat in txt` for strings: `pat` occurs contiguously in `txt`. -/
def contains_seg (pat : List Char) : List Char → Bool
  | [] => pat.isEmpty
  | b :: bs => seg_starts_with pat (b :: bs) || contains_seg pat bs

/-- Python `str.lower()` (ASCII). -/
def lower_chars (s : List Char) : List Char := s.map Char.toLower

/-- Whitespace test (Python `\s` for the inputs we model). -/
def is_space_char (c : Char) : Bool := c == ' '

/-- Python `str.strip()` for spaces. -/
def strip_chars (s : List Char) : List Char :=
  ((s.dropWhile is_space_char).reverse.dropWhile is_space_char).reverse

/-- Python `str.split(sep)` for a single-character separator. -/
def split_char (c : Char) : List Char → List (List Char)
  | [] => [[]]
  | a :: as =>
      match split_char c as with
      | [] => if a == c then [[], []] else [[a]]
      | w :: ws => if a == c then [] :: w :: ws else (a :: w) :: ws

/-- Python `str.split()` (split on whitespace runs, dropping empties). -/
def split_ws (s : List Char) : List (List Char) :=
  (split_char ' ' s).filter (fun w => !w.isEmpty)

/-! ## snapshot_calculator.py -/

/-- A completed/scheduled Fight row joined with its Event row, as the
snapshot calculator's SQL query sees it.  `event_date` is a day ordinal.
Note the database row *does* carry `ending_time`. -/
structure FightRow where
  fight_id : Nat
  event_date : Nat
  fighter1_id : Nat
  fighter2_id : Nat
  winner_id : Option Nat
  status : String
  weight_class : String
  is_title_fight : Bool
  is_main_event : Bool
  is_draw : Bool
  is_no_contest : Bool
  result_method : Option String
  ending_round : Option Nat
  ending_time : Option String
  deriving Repr, DecidableEq

/-- `FightRecord` dataclass (snapshot_calculator.py lines 24-43).
Faithfully, it has *no* `ending_time` field. -/
structure FightRecord where
  fight_id : Nat
  event_date : Nat
  opponent_id : Nat
  weight_class : String
  is_title_fight : Bool
  is_main_event : Bool
  won : Bool
  is_draw : Bool
  is_no_contest : Bool
  result_method : Option String
  ending_round : Option Nat
  deriving Repr, DecidableEq

/-- `getattr(fight, "ending_time", None)` in `calculate_stats`:
the `FightRecord` dataclass has no such attribute, so the default
`None` is always returned. -/
def record_ending_time (_f : FightRecord) : Option String := none

/-- Conversion of a joined row to a `FightRecord` for one fighter
(body of the loop in `get_fighter_history`). -/
def to_record (fighter_id : Nat) (f : FightRow) : FightRecord :=
  let is_f1 := f.fighter1_id == fighter_id
  { fight_id := f.fight_id
    event_date := f.event_date
    opponent_id := if is_f1 then f.fighter2_id else f.fighter1_id
    weight_class := f.weight_class
    is_title_fight := f.is_title_fight
    is_main_event := f.is_main_event
    won := f.winner_id == some fighter_id
    is_draw := f.is_draw
    is_no_contest := f.is_no_contest
    result_method := f.result_method
    ending_round := f.ending_round }

/-- Insert a row into a list sorted ascending by event date (ties keep
the incoming row later, i.e. a stable sort). -/
def insert_by_date (f : FightRow) : List FightRow → List FightRow
  | [] => [f]
  | g :: gs =>
      if f.event_date < g.event_date then f :: g :: gs
      else g :: insert_by_date f gs

/-- `ORDER BY Event.date ASC` of the history query. -/
def sort_by_date : List FightRow → List FightRow
  | [] => []
  | f :: fs => insert_by_date f (sort_by_date fs)

/-- The WHERE clause of `get_fighter_history`: fight involves the
fighter, is completed, and (when a cutoff is given) is strictly before
the cutoff date. -/
def history_pred (fighter_id : Nat) (before_date : Option Nat) (f : FightRow) : Bool :=
  ((f.fighter1_id == fighter_id || f.fighter2_id == fighter_id)
    && f.status == "completed")
  && (match before_date with
      | some d => decide (f.event_date < d)
      | none => true)

/-- `SnapshotCalculator.get_fighter_history`: filter the fight table,
order ascending by event date, convert each row to a `FightRecord`. -/
def get_fighter_history (fighter_id : Nat) (before_date : Option Nat)
    (db : List FightRow) : List FightRecord :=
  (sort_by_date (db.filter (history_pred fighter_id before_date))).map
    (to_record fighter_id)

/-- Decimal digit accumulator for `chars_to_int?`. -/
def digits_to_nat? (l : List Char) : Option Nat :=
  l.foldl
    (fun acc c =>
      match acc with
      | none => none
      | some n =>
          if c.isDigit then some (n * 10 + (c.toNat - 48)) else none)
    (some 0)

/-- Python `int(...)` on the substrings of a fight-time string: an
optional minus sign followed by decimal digits (the subset of `int`'s
grammar these strings can use). -/
def chars_to_int? (l : List Char) : Option Int :=
  match l with
  | [] => none
  | c :: rest =>
      if c == '-' then
        match rest with
        | [] => none
        | _ => (digits_to_nat? rest).map (fun n => -(n : Int))
      else (digits_to_nat? (c :: rest)).map (fun n => (n : Int))

/-- `parse_time_to_seconds`: "m:ss" in the final round plus 5 minutes
per completed round.  `round_num = 0` is falsy in Python and yields
`None`, as does a malformed time string. -/
def parse_time_to_seconds (time_str : Option String) (round_num : Option Nat) :
    Option Int :=
  match time_str, round_num with
  | none, _ => none
  | _, none => none
  | some s, some r =>
      if s.isEmpty || r == 0 then none
      else
        match split_char ':' s.data with
        | [m, sec] =>
            match chars_to_int? m, chars_to_int? sec with
            | some mi, some si => some ((((r : Int) - 1) * 5 * 60) + mi * 60 + si)
            | _, _ => none
        | _ => none

/-- Python truthiness of an optional string (`None` and `""` are falsy). -/
def method_truthy : Option String → Bool
  | none => false
  | some s => !s.isEmpty

/-- `is_ko_method`. -/
def is_ko_method (m : Option String) : Bool :=
  match m with
  | none => false
  | some s =>
      if s.isEmpty then false
      else
        let ml := lower_chars s.data
        contains_seg "ko".data ml || contains_seg "tko".data ml

/-- `is_submission_method`. -/
def is_submission_method (m : Option String) : Bool :=
  match m with
  | none => false
  | some s =>
      if s.isEmpty then false
      else contains_seg "sub".data (lower_chars s.data)

/-- `is_decision_method`. -/
def is_decision_method (m : Option String) : Bool :=
  match m with
  | none => false
  | some s =>
      if s.isEmpty then false
      else
        let ml := lower_chars s.data
        contains_seg "decision".data ml || contains_seg "dec".data ml

/-- `CalculatedStats` dataclass.  Rates are `Option ℚ` because the code
leaves them `None` until it assigns them. -/
structure CalculatedStats where
  wins : Nat := 0
  losses : Nat := 0
  draws : Nat := 0
  no_contests : Nat := 0
  ko_wins : Nat := 0
  submission_wins : Nat := 0
  decision_wins : Nat := 0
  ko_losses : Nat := 0
  submission_losses : Nat := 0
  decision_losses : Nat := 0
  current_win_streak : Nat := 0
  current_lose_streak : Nat := 0
  longest_win_streak : Nat := 0
  finish_rate : Option ℚ := none
  ko_rate : Option ℚ := none
  submission_rate : Option ℚ := none
  title_fight_wins : Nat := 0
  title_fight_losses : Nat := 0
  avg_fight_time_seconds : Option ℚ := none
  fights_in_weight_class : Nat := 0
  recent_wins : Nat := 0
  recent_losses : Nat := 0
  deriving Repr, DecidableEq

/-- The mutable locals of `calculate_stats`'s main loop. -/
structure StatsLoopState where
  stats : CalculatedStats := {}
  current_streak : Nat := 0
  streak_is_wins : Bool := true
  longest_win_streak : Nat := 0
  fight_times : List Int := []
  deriving Repr, DecidableEq

/-- The weight-class block of the loop body:
`if weight_class and fight.weight_class == weight_class`. -/
def tally_weight_class (weight_class : Option String) (s : CalculatedStats)
    (fight : FightRecord) : CalculatedStats :=
  if (match weight_class with
      | some wc => !wc.isEmpty && decide (fight.weight_class = wc)
      | none => false) then
    { s with fights_in_weight_class := s.fights_in_weight_class + 1 }
  else s

/-- The fight-time block of the loop body.  The `getattr` always
returns `None` (see `record_ending_time`), so this never appends. -/
def push_fight_time (times : List Int) (fight : FightRecord) : List Int :=
  if method_truthy fight.result_method
      && !(fight.ending_round.getD 0 == 0) then
    match parse_time_to_seconds (record_ending_time fight) fight.ending_round with
    | some t => if t != 0 then times ++ [t] else times
    | none => times
  else times

/-- The win-method `if/elif` chain. -/
def tally_win_method (s : CalculatedStats) (fight : FightRecord) :
    CalculatedStats :=
  if is_ko_method fight.result_method then
    { s with ko_wins := s.ko_wins + 1 }
  else if is_submission_method fight.result_method then
    { s with submission_wins := s.submission_wins + 1 }
  else if is_decision_method fight.result_method then
    { s with decision_wins := s.decision_wins + 1 }
  else s

/-- The loss-method `if/elif` chain. -/
def tally_loss_method (s : CalculatedStats) (fight : FightRecord) :
    CalculatedStats :=
  if is_ko_method fight.result_method then
    { s with ko_losses := s.ko_losses + 1 }
  else if is_submission_method fight.result_method then
    { s with submission_losses := s.submission_losses + 1 }
  else if is_decision_method fight.result_method then
    { s with decision_losses := s.decision_losses + 1 }
  else s

/-- The title-fight counter on a win. -/
def tally_title_win (s : CalculatedStats) (fight : FightRecord) :
    CalculatedStats :=
  if fight.is_title_fight then
    { s with title_fight_wins := s.title_fight_wins + 1 }
  else s

/-- The title-fight counter on a loss. -/
def tally_title_loss (s : CalculatedStats) (fight : FightRecord) :
    CalculatedStats :=
  if fight.is_title_fight then
    { s with title_fight_losses := s.title_fight_losses + 1 }
  else s

/-- `stats.wins += 1`. -/
def add_win (s : CalculatedStats) : CalculatedStats :=
  { s with wins := s.wins + 1 }

/-- `stats.losses += 1`. -/
def add_loss (s : CalculatedStats) : CalculatedStats :=
  { s with losses := s.losses + 1 }

/-- One iteration of the `for fight in fight_history` loop. -/
def stats_step (weight_class : Option String) (st : StatsLoopState)
    (fight : FightRecord) : StatsLoopState :=
  if fight.is_no_contest then
    { st with stats := { st.stats with no_contests := st.stats.no_contests + 1 } }
  else if fight.is_draw then
    { st with
      stats := { st.stats with draws := st.stats.draws + 1 }
      current_streak := 0 }
  else
    let s1 := tally_weight_class weight_class st.stats fight
    let ft := push_fight_time st.fight_times fight
    if fight.won then
      let s2 := add_win s1
      let s3 := tally_win_method s2 fight
      let s4 := tally_title_win s3 fight
      if st.streak_is_wins then
        { stats := s4
          current_streak := st.current_streak + 1
          streak_is_wins := true
          longest_win_streak := max st.longest_win_streak (st.current_streak + 1)
          fight_times := ft }
      else
        { stats := s4
          current_streak := 1
          streak_is_wins := true
          longest_win_streak := st.longest_win_streak
          fight_times := ft }
    else
      let s2 := add_loss s1
      let s3 := tally_loss_method s2 fight
      let s4 := tally_title_loss s3 fight
      if !st.streak_is_wins then
        { stats := s4
          current_streak := st.current_streak + 1
          streak_is_wins := false
          longest_win_streak := st.longest_win_streak
          fight_times := ft }
      else
        { stats := s4
          current_streak := 1
          streak_is_wins := false
          longest_win_streak := st.longest_win_streak
          fight_times := ft }

/-- Python `round(x, 1)` on an exact value: round half to even at one
decimal place. -/
def py_round1 (q : ℚ) : ℚ :=
  let t := q * 10
  let fl : ℤ := ⌊t⌋
  let r := t - (fl : ℚ)
  let n : ℤ :=
    if r < 1/2 then fl
    else if 1/2 < r then fl + 1
    else if fl % 2 = 0 then fl else fl + 1
  (n : ℚ) / 10

/-- Python `list[-5:]`: the last five elements (the whole list when
shorter). -/
def last5 (l : List FightRecord) : List FightRecord :=
  if l.length ≥ 5 then l.drop (l.length - 5) else l

/-- One iteration of the recent-form loop at the end of
`calculate_stats` (counts wins/losses over the last five fights,
skipping draws and no-contests). -/
def recent_step (s : CalculatedStats) (f : FightRecord) : CalculatedStats :=
  if f.is_no_contest || f.is_draw then s
  else if f.won then { s with recent_wins := s.recent_wins + 1 }
  else { s with recent_losses := s.recent_losses + 1 }

/-- The "set final streak values" block after the loop. -/
def finalize_streaks (st : StatsLoopState) : CalculatedStats :=
  let s1 :=
    if st.streak_is_wins then
      { st.stats with
        current_win_streak := st.current_streak
        current_lose_streak := 0 }
    else
      { st.stats with
        current_win_streak := 0
        current_lose_streak := st.current_streak }
  { s1 with longest_win_streak := st.longest_win_streak }

/-- The "calculate rates" block: only entered when the fighter has at
least one win or loss; each rate uses wins as the denominator and falls
back to 0 when there are no wins. -/
def set_rates (s : CalculatedStats) : CalculatedStats :=
  if s.wins + s.losses > 0 then
    let finishes := s.ko_wins + s.submission_wins
    { s with
      finish_rate := some (py_round1
        (if s.wins > 0 then (finishes : ℚ) / (s.wins : ℚ) * 100 else 0))
      ko_rate := some (py_round1
        (if s.wins > 0 then (s.ko_wins : ℚ) / (s.wins : ℚ) * 100 else 0))
      submission_rate := some (py_round1
        (if s.wins > 0 then (s.submission_wins : ℚ) / (s.wins : ℚ) * 100 else 0)) }
  else s

/-- The "average fight time" block. -/
def set_avg_time (times : List Int) (s : CalculatedStats) : CalculatedStats :=
  if !times.isEmpty then
    let avg : ℚ := ((times.map (fun t => (t : ℚ))).sum) / (times.length : ℚ)
    { s with avg_fight_time_seconds := some avg }
  else s

/-- `SnapshotCalculator.calculate_stats`. -/
def calculate_stats (fight_history : List FightRecord)
    (weight_class : Option String) : CalculatedStats :=
  if fight_history.isEmpty then {}
  else
    let st := fight_history.foldl (stats_step weight_class) {}
    let s2 := finalize_streaks st
    let s3 := set_rates s2
    let s4 := set_avg_time st.fight_times s3
    (last5 fight_history).foldl recent_step s4

/-- The fields `create_snapshot` copies into the persisted
`FighterSnapshot` row. -/
structure Snapshot where
  fighter_id : Nat
  fight_id : Nat
  snapshot_date : Nat
  wins : Nat
  losses : Nat
  draws : Nat
  no_contests : Nat
  finish_rate : Option ℚ
  ko_rate : Option ℚ
  submission_rate : Option ℚ
  win_streak : Nat
  loss_streak : Nat
  deriving Repr, DecidableEq

/-- `SnapshotCalculator.create_snapshot`: history strictly before the
fight's event date, stats in the fight's weight class, snapshot row. -/
def create_snapshot (fighter_id : Nat) (fight : FightRow)
    (db : List FightRow) : Snapshot :=
  let history := get_fighter_history fighter_id (some fight.event_date) db
  let stats := calculate_stats history (some fight.weight_class)
  { fighter_id := fighter_id
    fight_id := fight.fight_id
    snapshot_date := fight.event_date
    wins := stats.wins
    losses := stats.losses
    draws := stats.draws
    no_contests := stats.no_contests
    finish_rate := stats.finish_rate
    ko_rate := stats.ko_rate
    submission_rate := stats.submission_rate
    win_streak := stats.current_win_streak
    loss_streak := stats.current_lose_streak }

/-! ### Example rows and records used by concrete witnesses -/

/-- A completed fight row: fighter 1 beats fighter 2 by KO at date 10. -/
def ex_row_win : FightRow :=
  { fight_id := 1, event_date := 10, fighter1_id := 1, fighter2_id := 2,
    winner_id := some 1, status := "completed", weight_class := "Lightweight",
    is_title_fight := false, is_main_event := false, is_draw := false,
    is_no_contest := false, result_method := some "KO/TKO",
    ending_round := some 2, ending_time := some "3:15" }

/-- A completed fight row: fighter 1 loses to fighter 3 at date 20. -/
def ex_row_loss : FightRow :=
  { ex_row_win with
    fight_id := 2
    event_date := 20
    fighter2_id := 3
    winner_id := some 3
    result_method := some "Decision (Unanimous)"
    ending_round := some 3
    ending_time := some "5:00" }

/-- The fight under test for fighter 1, at date 30. -/
def ex_row_upcoming : FightRow :=
  { ex_row_win with
    fight_id := 3
    event_date := 30
    fighter2_id := 4
    winner_id := some 1
    ending_round := some 1
    ending_time := some "4:32" }

/-- A fight on a later date than `ex_row_upcoming`. -/
def ex_row_future : FightRow :=
  { ex_row_win with
    fight_id := 4
    event_date := 35
    fighter2_id := 5
    winner_id := some 5 }

/-- A won `FightRecord` (KO). -/
def ex_win : FightRecord :=
  { fight_id := 1, event_date := 10, opponent_id := 2,
    weight_class := "Lightweight", is_title_fight := false,
    is_main_event := false, won := true, is_draw := false,
    is_no_contest := false, result_method := some "KO/TKO",
    ending_round := some 2 }

/-- A lost `FightRecord` (decision). -/
def ex_loss : FightRecord :=
  { ex_win with
    fight_id := 2
    event_date := 20
    won := false
    result_method := some "Decision (Unanimous)"
    ending_round := some 3 }

/-- A drawn `FightRecord`. -/
def ex_draw : FightRecord :=
  { ex_win with
    fight_id := 3
    event_date := 25
    won := false
    is_draw := true
    result_method := some "Decision (Split)" }

/-! ### Lemmas about the history query -/

lemma mem_insert_by_date {a f : FightRow} {l : List FightRow} :
    a ∈ insert_by_date f l ↔ a = f ∨ a ∈ l := by
  induction l with
  | nil => simp [insert_by_date]
  | cons g gs ih =>
      by_cases h : f.event_date < g.event_date
      · simp [insert_by_date, h]
      · simp [insert_by_date, h, ih]
        tauto

lemma mem_sort_by_date {a : FightRow} {l : List FightRow} :
    a ∈ sort_by_date l ↔ a ∈ l := by
  induction l with
  | nil => simp [sort_by_date]
  | cons f fs ih => simp [sort_by_date, mem_insert_by_date, ih]

lemma history_pred_false_of_ge {F d : Nat} {e : FightRow}
    (h : d ≤ e.event_date) : history_pred F (some d) e = false := by
  simp [history_pred, Nat.not_lt.2 h]

lemma filter_history_extra_nil {F d : Nat} {extra : List FightRow}
    (h : ∀ e ∈ extra, d ≤ e.event_date) :
    extra.filter (history_pred F (some d)) = [] := by
  induction extra with
  | nil => rfl
  | cons e es ih =>
      rw [List.filter_cons,
        history_pred_false_of_ge (h e (List.mem_cons_self e es))]
      simp only [Bool.false_eq_true, if_false]
      exact ih fun x hx => h x (List.mem_cons_of_mem e hx)

/-- C1: the snapshot for fighter F before fight X is computed only from
completed fights of F with event date strictly before X's date — X
itself and same-date fights are excluded — and appending fights dated
on or after X's date leaves the snapshot unchanged. -/
theorem C1_no_leakage (F : Nat) (X : FightRow) (db extra : List FightRow)
    (hextra : ∀ e ∈ extra, X.event_date ≤ e.event_date) :
    create_snapshot F X (db ++ extra) = create_snapshot F X db
    ∧ ∀ r ∈ get_fighter_history F (some X.event_date) (db ++ extra),
        r.event_date < X.event_date
        ∧ ∃ row, row ∈ db ∧ row.status = "completed"
            ∧ (row.fighter1_id = F ∨ row.fighter2_id = F)
            ∧ row.event_date < X.event_date
            ∧ r = to_record F row := by
  have hfil : (db ++ extra).filter (history_pred F (some X.event_date))
      = db.filter (history_pred F (some X.event_date)) := by
    rw [List.filter_append, filter_history_extra_nil hextra, List.append_nil]
  constructor
  · unfold create_snapshot get_fighter_history
    rw [hfil]
  · intro r hr
    unfold get_fighter_history at hr
    rw [hfil] at hr
    rcases List.mem_map.1 hr with ⟨row, hrow, rfl⟩
    have hrow2 : row ∈ db.filter (history_pred F (some X.event_date)) :=
      mem_sort_by_date.1 hrow
    rcases List.mem_filter.1 hrow2 with ⟨hmem, hpred⟩
    simp only [history_pred, Bool.and_eq_true, Bool.or_eq_true, beq_iff_eq,
      decide_eq_true_eq] at hpred
    obtain ⟨⟨hinv, hcomp⟩, hdate⟩ := hpred
    exact ⟨hdate, row, hmem, hcomp, hinv, hdate, rfl⟩

/-- Witness for C1 at a concrete database: two prior fights, one
appended future fight. -/
theorem C1_no_leakage_witness :
    create_snapshot 1 ex_row_upcoming
        ([ex_row_win, ex_row_loss] ++ [ex_row_future])
      = create_snapshot 1 ex_row_upcoming [ex_row_win, ex_row_loss] :=
  (C1_no_leakage 1 ex_row_upcoming [ex_row_win, ex_row_loss] [ex_row_future]
    (by decide)).1

/-! ### Counting characterization of `calculate_stats` -/

/-- A fight that the win counter counts: not a no-contest, not a draw,
and won. -/
def counts_win (f : FightRecord) : Bool :=
  !f.is_no_contest && !f.is_draw && f.won

/-- A fight that the loss counter counts. -/
def counts_loss (f : FightRecord) : Bool :=
  !f.is_no_contest && !f.is_draw && !f.won

/-- A win classified as KO by the method classifier chain. -/
def counts_ko_win (f : FightRecord) : Bool :=
  counts_win f && is_ko_method f.result_method

/-- A win classified as submission (the `elif` chain: not KO first). -/
def counts_sub_win (f : FightRecord) : Bool :=
  counts_win f && !is_ko_method f.result_method
    && is_submission_method f.result_method

lemma parse_time_none (r : Option Nat) :
    parse_time_to_seconds none r = none := by
  cases r <;> rfl

lemma push_fight_time_eq (times : List Int) (f : FightRecord) :
    push_fight_time times f = times := by
  have hparse : parse_time_to_seconds (record_ending_time f) f.ending_round
      = none := parse_time_none f.ending_round
  unfold push_fight_time
  rw [hparse]
  split_ifs <;> rfl

lemma tally_weight_class_fields (wc : Option String) (s : CalculatedStats)
    (f : FightRecord) :
    (tally_weight_class wc s f).wins = s.wins
    ∧ (tally_weight_class wc s f).losses = s.losses
    ∧ (tally_weight_class wc s f).ko_wins = s.ko_wins
    ∧ (tally_weight_class wc s f).submission_wins = s.submission_wins
    ∧ (tally_weight_class wc s f).finish_rate = s.finish_rate
    ∧ (tally_weight_class wc s f).ko_rate = s.ko_rate
    ∧ (tally_weight_class wc s f).submission_rate = s.submission_rate
    ∧ (tally_weight_class wc s f).avg_fight_time_seconds
        = s.avg_fight_time_seconds := by
  unfold tally_weight_class
  split_ifs <;> exact ⟨rfl, rfl, rfl, rfl, rfl, rfl, rfl, rfl⟩

lemma tally_win_method_fields (s : CalculatedStats) (f : FightRecord) :
    (tally_win_method s f).wins = s.wins
    ∧ (tally_win_method s f).losses = s.losses
    ∧ (tally_win_method s f).ko_wins
        = s.ko_wins + (if is_ko_method f.result_method then 1 else 0)
    ∧ (tally_win_method s f).submission_wins
        = s.submission_wins
          + (if !is_ko_method f.result_method
                && is_submission_method f.result_method then 1 else 0)
    ∧ (tally_win_method s f).finish_rate = s.finish_rate
    ∧ (tally_win_method s f).ko_rate = s.ko_rate
    ∧ (tally_win_method s f).submission_rate = s.submission_rate
    ∧ (tally_win_method s f).avg_fight_time_seconds
        = s.avg_fight_time_seconds := by
  unfold tally_win_method
  split_ifs <;> simp_all

lemma tally_loss_method_fields (s : CalculatedStats) (f : FightRecord) :
    (tally_loss_method s f).wins = s.wins
    ∧ (tally_loss_method s f).losses = s.losses
    ∧ (tally_loss_method s f).ko_wins = s.ko_wins
    ∧ (tally_loss_method s f).submission_wins = s.submission_wins
    ∧ (tally_loss_method s f).finish_rate = s.finish_rate
    ∧ (tally_loss_method s f).ko_rate = s.ko_rate
    ∧ (tally_loss_method s f).submission_rate = s.submission_rate
    ∧ (tally_loss_method s f).avg_fight_time_seconds
        = s.avg_fight_time_seconds := by
  unfold tally_loss_method
  split_ifs <;> exact ⟨rfl, rfl, rfl, rfl, rfl, rfl, rfl, rfl⟩

lemma tally_title_win_fields (s : CalculatedStats) (f : FightRecord) :
    (tally_title_win s f).wins = s.wins
    ∧ (tally_title_win s f).losses = s.losses
    ∧ (tally_title_win s f).ko_wins = s.ko_wins
    ∧ (tally_title_win s f).submission_wins = s.submission_wins
    ∧ (tally_title_win s f).finish_rate = s.finish_rate
    ∧ (tally_title_win s f).ko_rate = s.ko_rate
    ∧ (tally_title_win s f).submission_rate = s.submission_rate
    ∧ (tally_title_win s f).avg_fight_time_seconds
        = s.avg_fight_time_seconds := by
  unfold tally_title_win
  split_ifs <;> exact ⟨rfl, rfl, rfl, rfl, rfl, rfl, rfl, rfl⟩

lemma tally_title_loss_fields (s : CalculatedStats) (f : FightRecord) :
    (tally_title_loss s f).wins = s.wins
    ∧ (tally_title_loss s f).losses = s.losses
    ∧ (tally_title_loss s f).ko_wins = s.ko_wins
    ∧ (tally_title_loss s f).submission_wins = s.submission_wins
    ∧ (tally_title_loss s f).finish_rate = s.finish_rate
    ∧ (tally_title_loss s f).ko_rate = s.ko_rate
    ∧ (tally_title_loss s f).submission_rate = s.submission_rate
    ∧ (tally_title_loss s f).avg_fight_time_seconds
        = s.avg_fight_time_seconds := by
  unfold tally_title_loss
  split_ifs <;> exact ⟨rfl, rfl, rfl, rfl, rfl, rfl, rfl, rfl⟩

lemma add_win_fields (s : CalculatedStats) :
    (add_win s).wins = s.wins + 1
    ∧ (add_win s).losses = s.losses
    ∧ (add_win s).ko_wins = s.ko_wins
    ∧ (add_win s).submission_wins = s.submission_wins
    ∧ (add_win s).finish_rate = s.finish_rate
    ∧ (add_win s).ko_rate = s.ko_rate
    ∧ (add_win s).submission_rate = s.submission_rate
    ∧ (add_win s).avg_fight_time_seconds = s.avg_fight_time_seconds :=
  ⟨rfl, rfl, rfl, rfl, rfl, rfl, rfl, rfl⟩

lemma add_loss_fields (s : CalculatedStats) :
    (add_loss s).wins = s.wins
    ∧ (add_loss s).losses = s.losses + 1
    ∧ (add_loss s).ko_wins = s.ko_wins
    ∧ (add_loss s).submission_wins = s.submission_wins
    ∧ (add_loss s).finish_rate = s.finish_rate
    ∧ (add_loss s).ko_rate = s.ko_rate
    ∧ (add_loss s).submission_rate = s.submission_rate
    ∧ (add_loss s).avg_fight_time_seconds = s.avg_fight_time_seconds :=
  ⟨rfl, rfl, rfl, rfl, rfl, rfl, rfl, rfl⟩

lemma stats_step_won_parts (wc : Option String) (st : StatsLoopState)
    (f : FightRecord) (hnc : f.is_no_contest = false)
    (hd : f.is_draw = false) (hw : f.won = true) :
    (stats_step wc st f).stats
      = tally_title_win
          (tally_win_method (add_win (tally_weight_class wc st.stats f)) f) f
    ∧ (stats_step wc st f).fight_times = push_fight_time st.fight_times f := by
  unfold stats_step
  rw [hnc, hd, hw]
  cases st.streak_is_wins <;> simp

lemma stats_step_lost_parts (wc : Option String) (st : StatsLoopState)
    (f : FightRecord) (hnc : f.is_no_contest = false)
    (hd : f.is_draw = false) (hw : f.won = false) :
    (stats_step wc st f).stats
      = tally_title_loss
          (tally_loss_method (add_loss (tally_weight_class wc st.stats f)) f) f
    ∧ (stats_step wc st f).fight_times = push_fight_time st.fight_times f := by
  unfold stats_step
  rw [hnc, hd, hw]
  cases st.streak_is_wins <;> simp

lemma stats_step_fields (wc : Option String) (st : StatsLoopState)
    (f : FightRecord) :
    (stats_step wc st f).stats.wins
        = st.stats.wins + (if counts_win f then 1 else 0)
    ∧ (stats_step wc st f).stats.losses
        = st.stats.losses + (if counts_loss f then 1 else 0)
    ∧ (stats_step wc st f).stats.ko_wins
        = st.stats.ko_wins + (if counts_ko_win f then 1 else 0)
    ∧ (stats_step wc st f).stats.submission_wins
        = st.stats.submission_wins + (if counts_sub_win f then 1 else 0)
    ∧ (stats_step wc st f).stats.finish_rate = st.stats.finish_rate
    ∧ (stats_step wc st f).stats.ko_rate = st.stats.ko_rate
    ∧ (stats_step wc st f).stats.submission_rate = st.stats.submission_rate
    ∧ (stats_step wc st f).stats.avg_fight_time_seconds
        = st.stats.avg_fight_time_seconds
    ∧ (stats_step wc st f).fight_times = st.fight_times := by
  cases hnc : f.is_no_contest with
  | true =>
      have hstep : stats_step wc st f
          = { st with stats :=
              { st.stats with no_contests := st.stats.no_contests + 1 } } := by
        unfold stats_step; rw [hnc]; simp
      rw [hstep]
      simp [counts_win, counts_loss, counts_ko_win, counts_sub_win, hnc]
  | false =>
      cases hd : f.is_draw with
      | true =>
          have hstep : stats_step wc st f
              = { st with
                  stats := { st.stats with draws := st.stats.draws + 1 }
                  current_streak := 0 } := by
            unfold stats_step; rw [hnc, hd]; simp
          rw [hstep]
          simp [counts_win, counts_loss, counts_ko_win, counts_sub_win,
            hnc, hd]
      | false =>
          cases hw : f.won with
          | true =>
              obtain ⟨hst, hft⟩ := stats_step_won_parts wc st f hnc hd hw
              obtain ⟨a1, a2, a3, a4, a5, a6, a7, a8⟩ :=
                tally_weight_class_fields wc st.stats f
              obtain ⟨d1, d2, d3, d4, d5, d6, d7, d8⟩ :=
                add_win_fields (tally_weight_class wc st.stats f)
              obtain ⟨b1, b2, b3, b4, b5, b6, b7, b8⟩ :=
                tally_win_method_fields
                  (add_win (tally_weight_class wc st.stats f)) f
              obtain ⟨c1, c2, c3, c4, c5, c6, c7, c8⟩ :=
                tally_title_win_fields
                  (tally_win_method
                    (add_win (tally_weight_class wc st.stats f)) f) f
              rw [hst]
              simp [counts_win, counts_loss, counts_ko_win, counts_sub_win,
                hnc, hd, hw, hft, push_fight_time_eq,
                c1, c2, c3, c4, c5, c6, c7, c8,
                b1, b2, b3, b4, b5, b6, b7, b8,
                d1, d2, d3, d4, d5, d6, d7, d8,
                a1, a2, a3, a4, a5, a6, a7, a8]
          | false =>
              obtain ⟨hst, hft⟩ := stats_step_lost_parts wc st f hnc hd hw
              obtain ⟨a1, a2, a3, a4, a5, a6, a7, a8⟩ :=
                tally_weight_class_fields wc st.stats f
              obtain ⟨d1, d2, d3, d4, d5, d6, d7, d8⟩ :=
                add_loss_fields (tally_weight_class wc st.stats f)
              obtain ⟨b1, b2, b3, b4, b5, b6, b7, b8⟩ :=
                tally_loss_method_fields
                  (add_loss (tally_weight_class wc st.stats f)) f
              obtain ⟨c1, c2, c3, c4, c5, c6, c7, c8⟩ :=
                tally_title_loss_fields
                  (tally_loss_method
                    (add_loss (tally_weight_class wc st.stats f)) f) f
              rw [hst]
              simp [counts_win, counts_loss, counts_ko_win, counts_sub_win,
                hnc, hd, hw, hft, push_fight_time_eq,
                c1, c2, c3, c4, c5, c6, c7, c8,
                b1, b2, b3, b4, b5, b6, b7, b8,
                d1, d2, d3, d4, d5, d6, d7, d8,
                a1, a2, a3, a4, a5, a6, a7, a8]

lemma stats_foldl_fields (wc : Option String) (l : List FightRecord) :
    ∀ st : StatsLoopState,
    (l.foldl (stats_step wc) st).stats.wins
        = st.stats.wins + l.countP counts_win
    ∧ (l.foldl (stats_step wc) st).stats.losses
        = st.stats.losses + l.countP counts_loss
    ∧ (l.foldl (stats_step wc) st).stats.ko_wins
        = st.stats.ko_wins + l.countP counts_ko_win
    ∧ (l.foldl (stats_step wc) st).stats.submission_wins
        = st.stats.submission_wins + l.countP counts_sub_win
    ∧ (l.foldl (stats_step wc) st).stats.finish_rate = st.stats.finish_rate
    ∧ (l.foldl (stats_step wc) st).stats.ko_rate = st.stats.ko_rate
    ∧ (l.foldl (stats_step wc) st).stats.submission_rate
        = st.stats.submission_rate
    ∧ (l.foldl (stats_step wc) st).stats.avg_fight_time_seconds
        = st.stats.avg_fight_time_seconds
    ∧ (l.foldl (stats_step wc) st).fight_times = st.fight_times := by
  induction l with
  | nil => intro st; simp
  | cons f fs ih =>
      intro st
      obtain ⟨h1, h2, h3, h4, h5, h6, h7, h8, h9⟩ :=
        stats_step_fields wc st f
      obtain ⟨g1, g2, g3, g4, g5, g6, g7, g8, g9⟩ :=
        ih (stats_step wc st f)
      refine ⟨?_, ?_, ?_, ?_, ?_, ?_, ?_, ?_, ?_⟩ <;>
        simp [List.countP_cons, List.foldl_cons, g1, g2, g3, g4, g5, g6,
          g7, g8, g9, h1, h2, h3, h4, h5, h6, h7, h8, h9] <;> omega

lemma recent_foldl_fields (l : List FightRecord) :
    ∀ s : CalculatedStats,
    (l.foldl recent_step s).wins = s.wins
    ∧ (l.foldl recent_step s).losses = s.losses
    ∧ (l.foldl recent_step s).finish_rate = s.finish_rate
    ∧ (l.foldl recent_step s).ko_rate = s.ko_rate
    ∧ (l.foldl recent_step s).submission_rate = s.submission_rate
    ∧ (l.foldl recent_step s).avg_fight_time_seconds
        = s.avg_fight_time_seconds
    ∧ (l.foldl recent_step s).longest_win_streak = s.longest_win_streak
    ∧ (l.foldl recent_step s).current_win_streak = s.current_win_streak := by
  induction l with
  | nil => intro s; simp
  | cons f fs ih =>
      intro s
      obtain ⟨g1, g2, g3, g4, g5, g6, g7, g8⟩ := ih (recent_step s f)
      have hs : (recent_step s f).wins = s.wins
          ∧ (recent_step s f).losses = s.losses
          ∧ (recent_step s f).finish_rate = s.finish_rate
          ∧ (recent_step s f).ko_rate = s.ko_rate
          ∧ (recent_step s f).submission_rate = s.submission_rate
          ∧ (recent_step s f).avg_fight_time_seconds
              = s.avg_fight_time_seconds
          ∧ (recent_step s f).longest_win_streak = s.longest_win_streak
          ∧ (recent_step s f).current_win_streak = s.current_win_streak := by
        simp [recent_step]; split_ifs <;> simp
      obtain ⟨k1, k2, k3, k4, k5, k6, k7, k8⟩ := hs
      simp [List.foldl_cons, g1, g2, g3, g4, g5, g6, g7, g8,
        k1, k2, k3, k4, k5, k6, k7, k8]

lemma counts_ko_sub_le (l : List FightRecord) :
    l.countP counts_ko_win + l.countP counts_sub_win
      ≤ l.countP counts_win := by
  induction l with
  | nil => simp
  | cons f fs ih =>
      simp only [List.countP_cons]
      by_cases hw : counts_win f
      · by_cases hk : is_ko_method f.result_method <;>
          by_cases hsub : is_submission_method f.result_method <;>
            simp [counts_ko_win, counts_sub_win, hw, hk, hsub] <;> omega
      · simp [counts_ko_win, counts_sub_win, hw]; omega

lemma finalize_streaks_fields (st : StatsLoopState) :
    (finalize_streaks st).wins = st.stats.wins
    ∧ (finalize_streaks st).losses = st.stats.losses
    ∧ (finalize_streaks st).ko_wins = st.stats.ko_wins
    ∧ (finalize_streaks st).submission_wins = st.stats.submission_wins
    ∧ (finalize_streaks st).finish_rate = st.stats.finish_rate
    ∧ (finalize_streaks st).ko_rate = st.stats.ko_rate
    ∧ (finalize_streaks st).submission_rate = st.stats.submission_rate
    ∧ (finalize_streaks st).avg_fight_time_seconds
        = st.stats.avg_fight_time_seconds := by
  unfold finalize_streaks
  split_ifs <;> exact ⟨rfl, rfl, rfl, rfl, rfl, rfl, rfl, rfl⟩

lemma set_rates_fields (s : CalculatedStats) :
    (set_rates s).wins = s.wins
    ∧ (set_rates s).losses = s.losses
    ∧ (set_rates s).avg_fight_time_seconds = s.avg_fight_time_seconds
    ∧ (s.wins + s.losses = 0 →
        (set_rates s).finish_rate = s.finish_rate
        ∧ (set_rates s).ko_rate = s.ko_rate
        ∧ (set_rates s).submission_rate = s.submission_rate)
    ∧ (0 < s.wins + s.losses →
        (set_rates s).finish_rate = some (py_round1
          (if s.wins > 0
            then ((s.ko_wins + s.submission_wins : Nat) : ℚ) / (s.wins : ℚ) * 100
            else 0))
        ∧ (set_rates s).ko_rate = some (py_round1
          (if s.wins > 0 then (s.ko_wins : ℚ) / (s.wins : ℚ) * 100 else 0))
        ∧ (set_rates s).submission_rate = some (py_round1
          (if s.wins > 0
            then (s.submission_wins : ℚ) / (s.wins : ℚ) * 100 else 0))) := by
  unfold set_rates
  by_cases h : s.wins + s.losses > 0
  · rw [if_pos h]
    exact ⟨rfl, rfl, rfl, fun h0 => by omega, fun _ => ⟨rfl, rfl, rfl⟩⟩
  · rw [if_neg h]
    exact ⟨rfl, rfl, rfl, fun _ => ⟨rfl, rfl, rfl⟩, fun h0 => by omega⟩

lemma set_avg_time_nil (s : CalculatedStats) : set_avg_time [] s = s := rfl

lemma py_round1_zero : py_round1 0 = 0 := by
  norm_num [py_round1]

lemma py_round1_bounds (x : ℚ) (h0 : 0 ≤ x) (h100 : x ≤ 100) :
    0 ≤ py_round1 x ∧ py_round1 x ≤ 100 := by
  unfold py_round1
  dsimp only
  have ht0 : (0:ℚ) ≤ x * 10 := by nlinarith
  have ht1000 : x * 10 ≤ 1000 := by nlinarith
  have hfl0 : (0:ℤ) ≤ ⌊x * 10⌋ := Int.floor_nonneg.2 ht0
  have hfl_le : ((⌊x * 10⌋ : ℤ) : ℚ) ≤ x * 10 := Int.floor_le _
  have hfl0q : (0:ℚ) ≤ ((⌊x * 10⌋ : ℤ) : ℚ) := by exact_mod_cast hfl0
  have hfl1000q : ((⌊x * 10⌋ : ℤ) : ℚ) ≤ 1000 := le_trans hfl_le ht1000
  split_ifs with h1 h2 h3
  · exact ⟨by linarith, by linarith⟩
  · have hhalf : 1/2 ≤ x * 10 - ((⌊x * 10⌋ : ℤ) : ℚ) := not_lt.1 h1
    have hltz : ⌊x * 10⌋ < 1000 := by
      have hq : ((⌊x * 10⌋ : ℤ) : ℚ) < 1000 := by linarith
      exact_mod_cast hq
    have h999 : ((⌊x * 10⌋ : ℤ) : ℚ) ≤ 999 := by
      have hz : ⌊x * 10⌋ ≤ 999 := by omega
      exact_mod_cast hz
    constructor
    · push_cast
      linarith
    · push_cast
      linarith
  · exact ⟨by linarith, by linarith⟩
  · have hhalf : 1/2 ≤ x * 10 - ((⌊x * 10⌋ : ℤ) : ℚ) := not_lt.1 h1
    have hltz : ⌊x * 10⌋ < 1000 := by
      have hq : ((⌊x * 10⌋ : ℤ) : ℚ) < 1000 := by linarith
      exact_mod_cast hq
    have h999 : ((⌊x * 10⌋ : ℤ) : ℚ) ≤ 999 := by
      have hz : ⌊x * 10⌋ ≤ 999 := by omega
      exact_mod_cast hz
    constructor
    · push_cast
      linarith
    · push_cast
      linarith

lemma calculate_stats_core (h : List FightRecord) (wc : Option String)
    (hne : h.isEmpty = false) :
    calculate_stats h wc
      = (last5 h).foldl recent_step
          (set_avg_time (h.foldl (stats_step wc) {}).fight_times
            (set_rates (finalize_streaks (h.foldl (stats_step wc) {})))) := by
  unfold calculate_stats
  rw [hne]
  simp

/-- C4 counterexample: a one-draw history has zero wins, yet the rates
are `None` (Python `None`), not 0 — `total_fights = 0` skips the whole
rate block. -/
theorem C4_counterexample :
    (calculate_stats [ex_draw] none).wins = 0
    ∧ (calculate_stats [ex_draw] none).finish_rate = none
    ∧ ¬ (calculate_stats [ex_draw] none).finish_rate = some 0
    ∧ (calculate_stats [ex_draw] none).ko_rate = none
    ∧ (calculate_stats [ex_draw] none).submission_rate = none := by
  refine ⟨rfl, rfl, ?_, rfl, rfl⟩
  intro h
  exact Option.noConfusion (show (none : Option ℚ) = some (0:ℚ) from h)

/-- C4 (amended): the finish/KO/submission rates of `calculate_stats`
use the fighter's wins as denominator (KO and submission wins counted
by the method classifier), rounded to one decimal, and lie in [0, 100];
when the fighter has zero wins but at least one loss they are 0; when
the fighter has neither wins nor losses (empty, or only draws and
no-contests) they are `None` rather than 0. -/
theorem C4_wins_only_rates (h : List FightRecord) (wc : Option String) :
    (calculate_stats h wc).wins = h.countP counts_win
    ∧ (calculate_stats h wc).losses = h.countP counts_loss
    ∧ (h.countP counts_win + h.countP counts_loss = 0 →
        (calculate_stats h wc).finish_rate = none
        ∧ (calculate_stats h wc).ko_rate = none
        ∧ (calculate_stats h wc).submission_rate = none)
    ∧ (0 < h.countP counts_win →
        (calculate_stats h wc).finish_rate = some (py_round1
          (((h.countP counts_ko_win + h.countP counts_sub_win : Nat) : ℚ)
            / (h.countP counts_win : ℚ) * 100))
        ∧ (calculate_stats h wc).ko_rate = some (py_round1
          ((h.countP counts_ko_win : ℚ) / (h.countP counts_win : ℚ) * 100))
        ∧ (calculate_stats h wc).submission_rate = some (py_round1
          ((h.countP counts_sub_win : ℚ) / (h.countP counts_win : ℚ) * 100)))
    ∧ (h.countP counts_win = 0 → 0 < h.countP counts_loss →
        (calculate_stats h wc).finish_rate = some 0
        ∧ (calculate_stats h wc).ko_rate = some 0
        ∧ (calculate_stats h wc).submission_rate = some 0)
    ∧ (∀ q : ℚ,
        (calculate_stats h wc).finish_rate = some q
          ∨ (calculate_stats h wc).ko_rate = some q
          ∨ (calculate_stats h wc).submission_rate = some q
        → 0 ≤ q ∧ q ≤ 100) := by
  by_cases hne : h.isEmpty = true
  · have hnil : h = [] := by
      cases h with
      | nil => rfl
      | cons a as => simp at hne
    subst hnil
    refine ⟨rfl, rfl, fun _ => ⟨rfl, rfl, rfl⟩, ?_, ?_, ?_⟩
    · intro hw0
      simp at hw0
    · intro hw0 hl0
      simp at hl0
    · intro q hq
      rcases hq with hq | hq | hq <;> simp [calculate_stats] at hq
  · have hne2 : h.isEmpty = false := by
      cases hb : h.isEmpty
      · rfl
      · exact absurd hb hne
    have hcore := calculate_stats_core h wc hne2
    obtain ⟨f1, f2, f3, f4, f5, f6, f7, f8, f9⟩ :=
      stats_foldl_fields wc h {}
    have hft : (h.foldl (stats_step wc) ({} : StatsLoopState)).fight_times
        = [] := by simpa using f9
    rw [hft, set_avg_time_nil] at hcore
    obtain ⟨g1, g2, g3, g4, g5, g6, g7, g8⟩ :=
      finalize_streaks_fields (h.foldl (stats_step wc) {})
    obtain ⟨r1, r2, r3, r4, r5⟩ :=
      set_rates_fields (finalize_streaks (h.foldl (stats_step wc) {}))
    obtain ⟨q1, q2, q3, q4, q5, q6, q7, q8⟩ :=
      recent_foldl_fields (last5 h)
        (set_rates (finalize_streaks (h.foldl (stats_step wc) {})))
    have hw : (finalize_streaks (h.foldl (stats_step wc) {})).wins
        = h.countP counts_win := by rw [g1, f1]; simp
    have hl : (finalize_streaks (h.foldl (stats_step wc) {})).losses
        = h.countP counts_loss := by rw [g2, f2]; simp
    have hko : (finalize_streaks (h.foldl (stats_step wc) {})).ko_wins
        = h.countP counts_ko_win := by rw [g3, f3]; simp
    have hsub : (finalize_streaks (h.foldl (stats_step wc) {})).submission_wins
        = h.countP counts_sub_win := by rw [g4, f4]; simp
    rw [hcore]
    refine ⟨?_, ?_, ?_, ?_, ?_, ?_⟩
    · rw [q1, r1, hw]
    · rw [q2, r2, hl]
    · intro h0
      have h0f : (finalize_streaks (h.foldl (stats_step wc) {})).wins
          + (finalize_streaks (h.foldl (stats_step wc) {})).losses = 0 := by
        rw [hw, hl]; exact h0
      obtain ⟨e1, e2, e3⟩ := r4 h0f
      refine ⟨?_, ?_, ?_⟩
      · rw [q3, e1, g5, f5]
      · rw [q4, e2, g6, f6]
      · rw [q5, e3, g7, f7]
    · intro h0
      have h0f : 0 < (finalize_streaks (h.foldl (stats_step wc) {})).wins
          + (finalize_streaks (h.foldl (stats_step wc) {})).losses := by
        rw [hw, hl]; omega
      obtain ⟨e1, e2, e3⟩ := r5 h0f
      have hwpos : (finalize_streaks (h.foldl (stats_step wc) {})).wins > 0 := by
        rw [hw]; exact h0
      refine ⟨?_, ?_, ?_⟩
      · rw [q3, e1, if_pos hwpos, hko, hsub, hw]
      · rw [q4, e2, if_pos hwpos, hko, hw]
      · rw [q5, e3, if_pos hwpos, hsub, hw]
    · intro hw0 hl0
      have h0f : 0 < (finalize_streaks (h.foldl (stats_step wc) {})).wins
          + (finalize_streaks (h.foldl (stats_step wc) {})).losses := by
        rw [hw, hl]; omega
      obtain ⟨e1, e2, e3⟩ := r5 h0f
      have hwneg : ¬ (finalize_streaks (h.foldl (stats_step wc) {})).wins > 0 := by
        rw [hw]; omega
      refine ⟨?_, ?_, ?_⟩
      · rw [q3, e1, if_neg hwneg, py_round1_zero]
      · rw [q4, e2, if_neg hwneg, py_round1_zero]
      · rw [q5, e3, if_neg hwneg, py_round1_zero]
    · intro q hq
      by_cases hcw : 0 < h.countP counts_win
      · have h0f : 0 < (finalize_streaks (h.foldl (stats_step wc) {})).wins
            + (finalize_streaks (h.foldl (stats_step wc) {})).losses := by
          rw [hw, hl]; omega
        obtain ⟨e1, e2, e3⟩ := r5 h0f
        have hwpos : (finalize_streaks (h.foldl (stats_step wc) {})).wins
            > 0 := by rw [hw]; exact hcw
        have hks := counts_ko_sub_le h
        have hwq : (0:ℚ) < (h.countP counts_win : ℚ) := by
          exact_mod_cast hcw
        rcases hq with hq | hq | hq
        · rw [q3, e1, if_pos hwpos, hko, hsub, hw] at hq
          have hv := Option.some.inj hq
          rw [← hv]
          apply py_round1_bounds
          · positivity
          · have hle : ((h.countP counts_ko_win + h.countP counts_sub_win : Nat) : ℚ)
                ≤ (h.countP counts_win : ℚ) := by exact_mod_cast hks
            rw [div_mul_eq_mul_div, div_le_iff₀ hwq]
            nlinarith
        · rw [q4, e2, if_pos hwpos, hko, hw] at hq
          have hv := Option.some.inj hq
          rw [← hv]
          apply py_round1_bounds
          · positivity
          · have hle : ((h.countP counts_ko_win : Nat) : ℚ)
                ≤ (h.countP counts_win : ℚ) := by
              have : h.countP counts_ko_win ≤ h.countP counts_win := by omega
              exact_mod_cast this
            rw [div_mul_eq_mul_div, div_le_iff₀ hwq]
            nlinarith
        · rw [q5, e3, if_pos hwpos, hsub, hw] at hq
          have hv := Option.some.inj hq
          rw [← hv]
          apply py_round1_bounds
          · positivity
          · have hle : ((h.countP counts_sub_win : Nat) : ℚ)
                ≤ (h.countP counts_win : ℚ) := by
              have : h.countP counts_sub_win ≤ h.countP counts_win := by omega
              exact_mod_cast this
            rw [div_mul_eq_mul_div, div_le_iff₀ hwq]
            nlinarith
      · have hw0 : h.countP counts_win = 0 := by omega
        by_cases hcl : 0 < h.countP counts_loss
        · have h0f : 0 < (finalize_streaks (h.foldl (stats_step wc) {})).wins
              + (finalize_streaks (h.foldl (stats_step wc) {})).losses := by
            rw [hw, hl]; omega
          obtain ⟨e1, e2, e3⟩ := r5 h0f
          have hwneg : ¬ (finalize_streaks (h.foldl (stats_step wc) {})).wins
              > 0 := by rw [hw]; omega
          have hq0 : q = 0 := by
            rcases hq with hq | hq | hq
            · rw [q3, e1, if_neg hwneg, py_round1_zero] at hq
              exact (Option.some.inj hq).symm
            · rw [q4, e2, if_neg hwneg, py_round1_zero] at hq
              exact (Option.some.inj hq).symm
            · rw [q5, e3, if_neg hwneg, py_round1_zero] at hq
              exact (Option.some.inj hq).symm
          rw [hq0]
          norm_num
        · have h0f : (finalize_streaks (h.foldl (stats_step wc) {})).wins
              + (finalize_streaks (h.foldl (stats_step wc) {})).losses = 0 := by
            rw [hw, hl]; omega
          obtain ⟨e1, e2, e3⟩ := r4 h0f
          exfalso
          rcases hq with hq | hq | hq
          · rw [q3, e1, g5, f5] at hq
            simp at hq
          · rw [q4, e2, g6, f6] at hq
            simp at hq
          · rw [q5, e3, g7, f7] at hq
            simp at hq

/-- Witness for C4 (amended) at a one-loss history: zero wins, one
loss, all three rates are 0. -/
theorem C4_wins_only_rates_witness :
    (calculate_stats [ex_loss] none).finish_rate = some 0
    ∧ (calculate_stats [ex_loss] none).ko_rate = some 0
    ∧ (calculate_stats [ex_loss] none).submission_rate = some 0 :=
  (C4_wins_only_rates [ex_loss] none).2.2.2.2.1 (by decide) (by decide)

/-- Longest run of consecutive wins as the claim (and spec §4.4 step 2)
describes it: no-contests are skipped, each draw or loss ends a run. -/
def spec_longest_win_run (h : List FightRecord) : Nat :=
  ((h.filter (fun f => !f.is_no_contest)).foldl
    (fun (p : Nat × Nat) f =>
      if !f.is_draw && f.won then (p.1 + 1, max p.2 (p.1 + 1)) else (0, p.2))
    (0, 0)).2

/-- C7: on the history [Loss, Win] the longest run of consecutive wins
is 1, but `calculate_stats` reports `longest_win_streak = 0` while also
reporting `current_win_streak = 1` — the code never folds a win run
that restarts after a loss into `longest_win_streak` until it reaches
length 2.  The claim's W, L, W scenario itself is reproduced correctly
(wins=2, losses=1, current streak 1, longest streak 1). -/
theorem C7_longest_streak_bug :
    spec_longest_win_run [ex_loss, ex_win] = 1
    ∧ (calculate_stats [ex_loss, ex_win] none).longest_win_streak = 0
    ∧ (calculate_stats [ex_loss, ex_win] none).current_win_streak = 1
    ∧ (calculate_stats [ex_win, ex_loss, ex_win] none).wins = 2
    ∧ (calculate_stats [ex_win, ex_loss, ex_win] none).losses = 1
    ∧ (calculate_stats [ex_win, ex_loss, ex_win] none).current_win_streak = 1
    ∧ (calculate_stats [ex_win, ex_loss, ex_win] none).longest_win_streak
        = 1 := by
  refine ⟨rfl, rfl, rfl, rfl, rfl, rfl, rfl⟩

/-- C8: `avg_fight_time_seconds` is always `None`, whatever the
history: `FightRecord` carries no `ending_time` attribute, so the
`getattr(..., None)` in `calculate_stats` always feeds `None` into
`parse_time_to_seconds` and no duration is ever recovered — even
though the parser itself works (second conjunct: round 1, "4:32"
is 272 seconds). -/
theorem C8_avg_fight_time_dead :
    (∀ (h : List FightRecord) (wc : Option String),
        (calculate_stats h wc).avg_fight_time_seconds = none)
    ∧ parse_time_to_seconds (some "4:32") (some 1) = some 272 := by
  constructor
  · intro h wc
    by_cases hne : h.isEmpty = true
    · have hnil : h = [] := by
        cases h with
        | nil => rfl
        | cons a as => simp at hne
      subst hnil
      rfl
    · have hne2 : h.isEmpty = false := by
        cases hb : h.isEmpty
        · rfl
        · exact absurd hb hne
      have hcore := calculate_stats_core h wc hne2
      obtain ⟨f1, f2, f3, f4, f5, f6, f7, f8, f9⟩ :=
        stats_foldl_fields wc h {}
      have hft : (h.foldl (stats_step wc) ({} : StatsLoopState)).fight_times
          = [] := by simpa using f9
      rw [hft, set_avg_time_nil] at hcore
      obtain ⟨g1, g2, g3, g4, g5, g6, g7, g8⟩ :=
        finalize_streaks_fields (h.foldl (stats_step wc) {})
      obtain ⟨r1, r2, r3, r4, r5⟩ :=
        set_rates_fields (finalize_streaks (h.foldl (stats_step wc) {}))
      obtain ⟨q1, q2, q3, q4, q5, q6, q7, q8⟩ :=
        recent_foldl_fields (last5 h)
          (set_rates (finalize_streaks (h.foldl (stats_step wc) {})))
      rw [hcore, q6, r3, g8, f8]
  · decide

/-! ## prediction_engine: weights.py, feature_extractor.py (the record
type), predictor.py.

Floats are exact rationals; only the logistic transform lives in ℝ.
The human-readable "factors"/"warnings" string lists are generated as
side effects in `_calculate_advantages` and do not influence any
numeric output; they are not modelled. -/

/-- `FighterFeatures` dataclass (feature_extractor.py). -/
structure FighterFeatures where
  fighter_id : String
  fighter_name : String
  win_rate : ℚ := 0
  finish_rate : ℚ := 0
  ko_rate : ℚ := 0
  submission_rate : ℚ := 0
  total_fights : Nat := 0
  experience_score : ℚ := 0
  striking_accuracy : ℚ := 0
  striking_defense : ℚ := 0
  strikes_per_min : ℚ := 0
  strikes_absorbed_per_min : ℚ := 0
  strike_differential : ℚ := 0
  takedown_accuracy : ℚ := 0
  takedown_defense : ℚ := 0
  takedowns_per_15min : ℚ := 0
  submissions_per_15min : ℚ := 0
  win_streak : Int := 0
  loss_streak : Int := 0
  recent_form_score : ℚ := 0
  days_since_fight : Option Int := none
  activity_score : ℚ := 0
  height_cm : Option ℚ := none
  reach_cm : Option ℚ := none
  age_years : Option ℚ := none
  deriving Repr, DecidableEq

/-- `PredictionWeights` with the default values of weights.py. -/
structure PredictionWeights where
  win_rate : ℚ := 12/100
  experience : ℚ := 8/100
  finish_rate : ℚ := 5/100
  striking_accuracy : ℚ := 8/100
  striking_defense : ℚ := 7/100
  strike_differential : ℚ := 10/100
  takedown_accuracy : ℚ := 6/100
  takedown_defense : ℚ := 7/100
  grappling_offense : ℚ := 7/100
  recent_form : ℚ := 10/100
  win_streak : ℚ := 5/100
  activity : ℚ := 5/100
  reach_advantage : ℚ := 5/100
  height_advantage : ℚ := 3/100
  age_advantage : ℚ := 2/100
  deriving Repr, DecidableEq

/-- `PredictionWeights.default()`. -/
def PredictionWeights.default : PredictionWeights := {}

/-- `AdvantageBreakdown` dataclass. -/
structure AdvantageBreakdown where
  record : ℚ := 0
  striking : ℚ := 0
  grappling : ℚ := 0
  form : ℚ := 0
  physical : ℚ := 0
  deriving Repr, DecidableEq

/-- `AdvantageBreakdown.total`. -/
def AdvantageBreakdown.total (b : AdvantageBreakdown) : ℚ :=
  b.record + b.striking + b.grappling + b.form + b.physical

/-- `_normalize_differential`. -/
def normalize_differential (diff1 diff2 : ℚ) : ℚ := (diff1 - diff2) / 5

/-- `_streak_advantage`. -/
def streak_advantage (f1 f2 : FighterFeatures) : ℚ :=
  (((f1.win_streak - f1.loss_streak) - (f2.win_streak - f2.loss_streak) : Int) : ℚ) / 6

/-- `_physical_advantage`. -/
def physical_advantage (val1 val2 : Option ℚ) (scale : ℚ) : ℚ :=
  match val1, val2 with
  | some v1, some v2 => (v1 - v2) / scale
  | _, _ => 0

/-- The inner `age_score` of `_age_advantage`. -/
def age_score (age : ℚ) : ℚ :=
  if 28 ≤ age ∧ age ≤ 32 then 1
  else if age < 28 then 8/10 + (age - 22) * (33/1000)
  else 1 - (age - 32) * (5/100)

/-- `_age_advantage`. -/
def age_advantage (age1 age2 : Option ℚ) : ℚ :=
  match age1, age2 with
  | some a1, some a2 => age_score a1 - age_score a2
  | _, _ => 0

/-- `_calculate_advantages` (numeric part; the factor strings it
appends are presentation only). -/
def calculate_advantages (w : PredictionWeights) (f1 f2 : FighterFeatures) :
    AdvantageBreakdown :=
  let win_rate_adv := (f1.win_rate - f2.win_rate) * w.win_rate
  let exp_adv := (f1.experience_score - f2.experience_score) * w.experience
  let finish_adv := (f1.finish_rate - f2.finish_rate) * w.finish_rate
  let record_total := win_rate_adv + exp_adv + finish_adv
  let acc_adv := (f1.striking_accuracy - f2.striking_accuracy) * w.striking_accuracy
  let def_adv := (f1.striking_defense - f2.striking_defense) * w.striking_defense
  let diff_adv :=
    normalize_differential f1.strike_differential f2.strike_differential
      * w.strike_differential
  let striking_total := acc_adv + def_adv + diff_adv
  let td_acc_adv := (f1.takedown_accuracy - f2.takedown_accuracy) * w.takedown_accuracy
  let td_def_adv := (f1.takedown_defense - f2.takedown_defense) * w.takedown_defense
  let grap_off :=
    ((f1.takedowns_per_15min + f1.submissions_per_15min)
      - (f2.takedowns_per_15min + f2.submissions_per_15min)) / 10
      * w.grappling_offense
  let grappling_total := td_acc_adv + td_def_adv + grap_off
  let form_adv := (f1.recent_form_score - f2.recent_form_score) * w.recent_form
  let streak_adv := streak_advantage f1 f2 * w.win_streak
  let activity_adv := (f1.activity_score - f2.activity_score) * w.activity
  let form_total := form_adv + streak_adv + activity_adv
  let reach_adv := physical_advantage f1.reach_cm f2.reach_cm 10 * w.reach_advantage
  let height_adv := physical_advantage f1.height_cm f2.height_cm 15 * w.height_advantage
  let age_adv := age_advantage f1.age_years f2.age_years * w.age_advantage
  let physical_total := reach_adv + height_adv + age_adv
  { record := record_total
    striking := striking_total
    grappling := grappling_total
    form := form_total
    physical := physical_total }

/-- The signed total advantage of a matchup (positive favors f1). -/
def total_advantage (w : PredictionWeights) (f1 f2 : FighterFeatures) : ℚ :=
  (calculate_advantages w f1 f2).total

/-- `_advantage_to_probability`: clamp to [-1, 1], then the logistic
`1 / (1 + e^(-advantage * 3))`. -/
noncomputable def advantage_to_probability (advantage : ℚ) : ℝ :=
  let clamped : ℚ := max (-1) (min 1 advantage)
  1 / (1 + Real.exp (-(clamped : ℝ) * 3))

/-- `_calculate_confidence`. -/
def calculate_confidence (f1 f2 : FighterFeatures)
    (advantage_magnitude : ℚ) : ℚ :=
  let c0 := min 1 (advantage_magnitude * 2)
  let min_fights := min f1.total_fights f2.total_fights
  let c1 :=
    if min_fights < 5 then c0 * (6/10)
    else if min_fights < 10 then c0 * (8/10)
    else c0
  let c2 := if advantage_magnitude < 5/100 then c1 * (7/10) else c1
  min 1 (max 0 c2)

/-- `_get_confidence_label`. -/
def get_confidence_label (confidence : ℚ) : String :=
  if confidence ≥ 7/10 then "High"
  else if confidence ≥ 4/10 then "Medium"
  else "Low"

/-- `_predict_method`. -/
def predict_method (f1 f2 : FighterFeatures) : Option String × Option ℚ :=
  let avg_ko := (f1.ko_rate + f2.ko_rate) / 2
  let avg_sub := (f1.submission_rate + f2.submission_rate) / 2
  let avg_finish := (f1.finish_rate + f2.finish_rate) / 2
  if avg_finish < 3/10 then (some "Decision", some (6/10))
  else if avg_ko > avg_sub ∧ avg_ko > 3/10 then
    (some "KO/TKO", some (min (7/10) (avg_ko + 2/10)))
  else if avg_sub > 1/4 then
    (some "Submission", some (min (6/10) (avg_sub + 3/20)))
  else (some "Decision", some (1/2))

/-- `Prediction` (the fields the claims are about). -/
structure Prediction where
  fight_id : Option String
  fighter1_id : String
  fighter2_id : String
  fighter1_name : String
  fighter2_name : String
  predicted_winner_id : String
  predicted_winner_name : String
  win_probability : ℝ
  confidence : ℚ
  confidence_label : String
  fighter1_advantage : ℚ
  advantage_breakdown : AdvantageBreakdown
  predicted_method : Option String
  method_probability : Option ℚ

/-- `RuleBasedPredictor.predict`. -/
noncomputable def predict (w : PredictionWeights) (f1 f2 : FighterFeatures) :
    Prediction :=
  let breakdown := calculate_advantages w f1 f2
  let total := breakdown.total
  let win_probability := advantage_to_probability total
  let winner_id := if total ≥ 0 then f1.fighter_id else f2.fighter_id
  let winner_name := if total ≥ 0 then f1.fighter_name else f2.fighter_name
  let winner_prob := if total ≥ 0 then win_probability else 1 - win_probability
  let confidence := calculate_confidence f1 f2 |total|
  let mp := predict_method f1 f2
  { fight_id := none
    fighter1_id := f1.fighter_id
    fighter2_id := f2.fighter_id
    fighter1_name := f1.fighter_name
    fighter2_name := f2.fighter_name
    predicted_winner_id := winner_id
    predicted_winner_name := winner_name
    win_probability := winner_prob
    confidence := confidence
    confidence_label := get_confidence_label confidence
    fighter1_advantage := total
    advantage_breakdown := breakdown
    predicted_method := mp.1
    method_probability := mp.2 }

/-! ### Predictor lemmas and claim theorems -/

/-- Reading `predicted_winner_id` out of `predict`. -/
lemma predict_winner_id (w : PredictionWeights) (f1 f2 : FighterFeatures) :
    (predict w f1 f2).predicted_winner_id
      = if total_advantage w f1 f2 ≥ 0 then f1.fighter_id
        else f2.fighter_id := rfl

/-- Reading `predicted_winner_name` out of `predict`. -/
lemma predict_winner_name (w : PredictionWeights) (f1 f2 : FighterFeatures) :
    (predict w f1 f2).predicted_winner_name
      = if total_advantage w f1 f2 ≥ 0 then f1.fighter_name
        else f2.fighter_name := rfl

/-- Reading `win_probability` out of `predict`. -/
lemma predict_win_prob (w : PredictionWeights) (f1 f2 : FighterFeatures) :
    (predict w f1 f2).win_probability
      = if total_advantage w f1 f2 ≥ 0
          then advantage_to_probability (total_advantage w f1 f2)
          else 1 - advantage_to_probability (total_advantage w f1 f2) := rfl

/-- Reading `confidence` out of `predict`. -/
lemma predict_confidence (w : PredictionWeights) (f1 f2 : FighterFeatures) :
    (predict w f1 f2).confidence
      = calculate_confidence f1 f2 |total_advantage w f1 f2| := rfl

lemma physical_advantage_antisym (a b : Option ℚ) (scale : ℚ) :
    physical_advantage a b scale = - physical_advantage b a scale := by
  cases a <;> cases b <;> simp [physical_advantage]
  ring

lemma age_advantage_antisym (a b : Option ℚ) :
    age_advantage a b = - age_advantage b a := by
  cases a <;> cases b <;> simp [age_advantage]

lemma streak_advantage_antisym (f1 f2 : FighterFeatures) :
    streak_advantage f1 f2 = - streak_advantage f2 f1 := by
  unfold streak_advantage
  push_cast
  ring

lemma total_advantage_antisym (w : PredictionWeights)
    (A B : FighterFeatures) :
    total_advantage w B A = - total_advantage w A B := by
  have hp1 := physical_advantage_antisym B.reach_cm A.reach_cm 10
  have hp2 := physical_advantage_antisym B.height_cm A.height_cm 15
  have ha := age_advantage_antisym B.age_years A.age_years
  have hs := streak_advantage_antisym B A
  unfold total_advantage calculate_advantages AdvantageBreakdown.total
  dsimp only
  rw [hp1, hp2, ha, hs]
  unfold normalize_differential
  ring

/-- All-default feature vector for fighter id "f1". -/
def ex_feat_a : FighterFeatures := { fighter_id := "f1", fighter_name := "Alpha" }

/-- All-default feature vector for fighter id "f2" — numerically
identical to `ex_feat_a`. -/
def ex_feat_b : FighterFeatures := { fighter_id := "f2", fighter_name := "Bravo" }

/-- Like `ex_feat_b` but with a perfect win rate (nonzero advantage). -/
def ex_feat_c : FighterFeatures := { ex_feat_b with win_rate := 1 }

/-- C2 counterexample: two numerically identical feature vectors have
total advantage exactly 0, and then each call names its *own* first
fighter — predict(A,B) names A while predict(B,A) names B, two
different fighters. -/
theorem C2_counterexample :
    total_advantage PredictionWeights.default ex_feat_a ex_feat_b = 0
    ∧ (predict PredictionWeights.default ex_feat_a ex_feat_b).predicted_winner_id
        = "f1"
    ∧ (predict PredictionWeights.default ex_feat_b ex_feat_a).predicted_winner_id
        = "f2"
    ∧ ("f1" : String) ≠ "f2" := by
  have h0 : total_advantage PredictionWeights.default ex_feat_a ex_feat_b
      = 0 := by
    norm_num [total_advantage, calculate_advantages, AdvantageBreakdown.total,
      normalize_differential, streak_advantage, physical_advantage,
      age_advantage, ex_feat_a, ex_feat_b, PredictionWeights.default]
  have h0s : total_advantage PredictionWeights.default ex_feat_b ex_feat_a
      = 0 := by
    rw [total_advantage_antisym, h0, neg_zero]
  refine ⟨h0, ?_, ?_, by decide⟩
  · rw [predict_winner_id, if_pos (by rw [h0])]
    rfl
  · rw [predict_winner_id, if_pos (by rw [h0s])]
    rfl

/-- C2 (amended): the signed total advantage is exactly antisymmetric,
advantage(B,A) = −advantage(A,B), and whenever the total advantage is
nonzero the two call orders name the same predicted winner (id and
name).  At total advantage exactly 0 each order names its own first
fighter (see the counterexample). -/
theorem C2_symmetry_amended (w : PredictionWeights) (A B : FighterFeatures) :
    total_advantage w B A = - total_advantage w A B
    ∧ (total_advantage w A B ≠ 0 →
        (predict w A B).predicted_winner_id
            = (predict w B A).predicted_winner_id
        ∧ (predict w A B).predicted_winner_name
            = (predict w B A).predicted_winner_name) := by
  have hanti := total_advantage_antisym w A B
  refine ⟨hanti, fun hne => ?_⟩
  rcases lt_or_gt_of_ne hne with hlt | hgt
  · have h1 : ¬ total_advantage w A B ≥ 0 := by linarith
    have h2 : total_advantage w B A ≥ 0 := by rw [hanti]; linarith
    rw [predict_winner_id, predict_winner_id, predict_winner_name,
      predict_winner_name, if_neg h1, if_pos h2, if_neg h1, if_pos h2]
    exact ⟨rfl, rfl⟩
  · have h1 : total_advantage w A B ≥ 0 := le_of_lt hgt
    have h2 : ¬ total_advantage w B A ≥ 0 := by rw [hanti]; linarith
    rw [predict_winner_id, predict_winner_id, predict_winner_name,
      predict_winner_name, if_pos h1, if_neg h2, if_pos h1, if_neg h2]
    exact ⟨rfl, rfl⟩

/-- Witness for C2 (amended): a concrete nonzero-advantage matchup;
both call orders name fighter "f2" (the one with the perfect win
rate). -/
theorem C2_symmetry_amended_witness :
    (predict PredictionWeights.default ex_feat_a ex_feat_c).predicted_winner_id
      = (predict PredictionWeights.default ex_feat_c ex_feat_a).predicted_winner_id
    ∧ total_advantage PredictionWeights.default ex_feat_a ex_feat_c ≠ 0 := by
  have hne : total_advantage PredictionWeights.default ex_feat_a ex_feat_c
      ≠ 0 := by
    norm_num [total_advantage, calculate_advantages, AdvantageBreakdown.total,
      normalize_differential, streak_advantage, physical_advantage,
      age_advantage, ex_feat_a, ex_feat_c, ex_feat_b,
      PredictionWeights.default]
  exact ⟨((C2_symmetry_amended PredictionWeights.default
    ex_feat_a ex_feat_c).2 hne).1, hne⟩

lemma adv_prob_bounds (a : ℚ) :
    (0 : ℝ) < advantage_to_probability a
    ∧ advantage_to_probability a < 1
    ∧ (0 ≤ a → (1:ℝ)/2 ≤ advantage_to_probability a)
    ∧ (a < 0 → advantage_to_probability a ≤ 1/2) := by
  unfold advantage_to_probability
  dsimp only
  have hexp : (0:ℝ) < Real.exp (-((max (-1) (min 1 a) : ℚ) : ℝ) * 3) :=
    Real.exp_pos _
  have hden : (0:ℝ) < 1 + Real.exp (-((max (-1) (min 1 a) : ℚ) : ℝ) * 3) := by
    linarith
  refine ⟨by positivity, ?_, ?_, ?_⟩
  · rw [div_lt_one hden]
    linarith
  · intro ha
    have hc0 : (0:ℚ) ≤ max (-1) (min 1 a) :=
      le_trans (le_min (by norm_num) ha) (le_max_right _ _)
    have hc0r : (0:ℝ) ≤ ((max (-1) (min 1 a) : ℚ) : ℝ) := by exact_mod_cast hc0
    have harg : -((max (-1) (min 1 a) : ℚ) : ℝ) * 3 ≤ 0 := by nlinarith
    have hexple : Real.exp (-((max (-1) (min 1 a) : ℚ) : ℝ) * 3) ≤ 1 := by
      calc Real.exp (-((max (-1) (min 1 a) : ℚ) : ℝ) * 3)
          ≤ Real.exp 0 := Real.exp_le_exp.2 harg
        _ = 1 := Real.exp_zero
    rw [le_div_iff₀ hden]
    linarith
  · intro ha
    have hc0 : max (-1) (min 1 a) ≤ (0:ℚ) :=
      max_le (by norm_num) (le_trans (min_le_right _ _) (le_of_lt ha))
    have hc0r : ((max (-1) (min 1 a) : ℚ) : ℝ) ≤ 0 := by exact_mod_cast hc0
    have harg : 0 ≤ -((max (-1) (min 1 a) : ℚ) : ℝ) * 3 := by nlinarith
    have hexpge : 1 ≤ Real.exp (-((max (-1) (min 1 a) : ℚ) : ℝ) * 3) := by
      calc (1:ℝ) = Real.exp 0 := Real.exp_zero.symm
        _ ≤ Real.exp (-((max (-1) (min 1 a) : ℚ) : ℝ) * 3) :=
            Real.exp_le_exp.2 harg
    rw [div_le_div_iff₀ hden (by norm_num)]
    linarith

lemma calculate_confidence_bounds (f1 f2 : FighterFeatures) (am : ℚ) :
    0 ≤ calculate_confidence f1 f2 am
    ∧ calculate_confidence f1 f2 am ≤ 1 := by
  unfold calculate_confidence
  dsimp only
  exact ⟨le_min (by norm_num) (le_max_left _ _), min_le_left _ _⟩

/-- C3: the reported win probability for the predicted winner always
lies in [0.5, 1.0] (via the clamped logistic transform), and the
reported confidence always lies in [0.0, 1.0]. -/
theorem C3_probability_confidence_bounds (w : PredictionWeights)
    (f1 f2 : FighterFeatures) :
    (1:ℝ)/2 ≤ (predict w f1 f2).win_probability
    ∧ (predict w f1 f2).win_probability ≤ 1
    ∧ (0:ℚ) ≤ (predict w f1 f2).confidence
    ∧ (predict w f1 f2).confidence ≤ 1 := by
  obtain ⟨p1, p2, p3, p4⟩ := adv_prob_bounds (total_advantage w f1 f2)
  obtain ⟨c1, c2⟩ :=
    calculate_confidence_bounds f1 f2 |total_advantage w f1 f2|
  rw [predict_win_prob, predict_confidence]
  by_cases ht : total_advantage w f1 f2 ≥ 0
  · rw [if_pos ht]
    exact ⟨p3 ht, le_of_lt p2, c1, c2⟩
  · rw [if_neg ht]
    have hlt : total_advantage w f1 f2 < 0 := lt_of_not_ge ht
    have := p4 hlt
    constructor
    · linarith
    refine ⟨by linarith, c1, c2⟩

/-- C10: when the total weighted advantage is exactly zero — in
particular for numerically identical feature vectors — `predict` names
fighter 1 as the winner (the `total_advantage >= 0` branch) with win
probability exactly 1/2 (the logistic of a clamped 0 advantage). -/
theorem C10_tie_goes_to_fighter1 (w : PredictionWeights)
    (f1 f2 : FighterFeatures) (h : total_advantage w f1 f2 = 0) :
    (predict w f1 f2).predicted_winner_id = f1.fighter_id
    ∧ (predict w f1 f2).predicted_winner_name = f1.fighter_name
    ∧ (predict w f1 f2).win_probability = 1/2 := by
  have hge : total_advantage w f1 f2 ≥ 0 := by rw [h]
  refine ⟨?_, ?_, ?_⟩
  · rw [predict_winner_id, if_pos hge]
  · rw [predict_winner_name, if_pos hge]
  · rw [predict_win_prob, if_pos hge, h]
    unfold advantage_to_probability
    dsimp only
    have hclamp : (max (-1) (min 1 (0:ℚ))) = 0 := by norm_num
    rw [hclamp]
    push_cast
    norm_num

/-- Witness for C10: two all-default feature vectors (advantage 0);
fighter 1 ("f1") is named winner with probability exactly 1/2. -/
theorem C10_tie_witness :
    (predict PredictionWeights.default ex_feat_a ex_feat_b).predicted_winner_id
        = "f1"
    ∧ (predict PredictionWeights.default ex_feat_a ex_feat_b).win_probability
        = 1/2 := by
  have h0 : total_advantage PredictionWeights.default ex_feat_a ex_feat_b
      = 0 := by
    norm_num [total_advantage, calculate_advantages, AdvantageBreakdown.total,
      normalize_differential, streak_advantage, physical_advantage,
      age_advantage, ex_feat_a, ex_feat_b, PredictionWeights.default]
  have h := C10_tie_goes_to_fighter1 PredictionWeights.default
    ex_feat_a ex_feat_b h0
  exact ⟨h.1, h.2.2⟩

/-! ## import_service.py: the transaction shape of `run_import`

The body of the `try:` block (adapter fetches plus
`import_fighters` / `import_events` / `import_fights`) is modelled as a
list of primitive steps: staging a database write in the session,
updating the run's mutable `ImportResult`, or raising an exception.
`run_import` executes the body, commits and marks `completed` on
success, and on an exception rolls the session back, marks `failed`,
and appends "Import failed: <msg>" to the error list — exactly the
`try/except` at import_service.py lines 489-530.  (The `DataImport`
audit row written outside the data transaction is not part of the
claim and is not modelled.) -/

/-- `ImportResult` (adapters/base.py): per-run counters, append-only
error list, status in {running, completed, failed}. -/
structure ImportResult where
  status : String := "running"
  fighters_processed : Nat := 0
  fighters_created : Nat := 0
  fighters_updated : Nat := 0
  events_processed : Nat := 0
  events_created : Nat := 0
  events_updated : Nat := 0
  fights_processed : Nat := 0
  fights_created : Nat := 0
  fights_updated : Nat := 0
  errors : List String := []
  deriving Repr, DecidableEq

/-- `ImportResult.add_error`. -/
def ImportResult.add_error (r : ImportResult) (e : String) : ImportResult :=
  { r with errors := r.errors ++ [e] }

/-- One primitive action of the fetch/persist body. -/
inductive ImportStep where
  | write (row : Nat)
  | update (f : ImportResult → ImportResult)
  | raise_exn (msg : String)

/-- The database session: committed rows, plus the pending writes of
the open transaction. -/
structure Session where
  committed : List Nat := []
  pending : List Nat := []
  deriving Repr, DecidableEq

/-- `db.commit()`. -/
def Session.commit (s : Session) : Session :=
  { committed := s.committed ++ s.pending, pending := [] }

/-- `db.rollback()`. -/
def Session.rollback (s : Session) : Session :=
  { s with pending := [] }

/-- Execute the body of the `try:` block step by step; stops at the
first raised exception, returning the session/result state at that
point and the exception message. -/
def exec_steps : List ImportStep → Session → ImportResult →
    Session × ImportResult × Option String
  | [], s, r => (s, r, none)
  | .write row :: rest, s, r =>
      exec_steps rest { s with pending := s.pending ++ [row] } r
  | .update f :: rest, s, r => exec_steps rest s (f r)
  | .raise_exn msg :: _, s, r => (s, r, some msg)

/-- `ImportService.run_import`. -/
def run_import (steps : List ImportStep) (s : Session) :
    Session × ImportResult :=
  match exec_steps steps s {} with
  | (s1, r1, none) => (s1.commit, { r1 with status := "completed" })
  | (s1, r1, some msg) =>
      (s1.rollback,
        ImportResult.add_error { r1 with status := "failed" }
          ("Import failed: " ++ msg))

/-- The rows a step list stages for writing. -/
def writes_of (steps : List ImportStep) : List Nat :=
  steps.filterMap fun st =>
    match st with
    | .write row => some row
    | _ => none

/-- The cumulative effect of a step list on the run's result record. -/
def apply_updates (steps : List ImportStep) (r : ImportResult) :
    ImportResult :=
  steps.foldl
    (fun r st =>
      match st with
      | .update f => f r
      | _ => r)
    r

lemma exec_steps_no_raise (steps : List ImportStep)
    (h : ∀ m, ImportStep.raise_exn m ∉ steps) :
    ∀ (s : Session) (r : ImportResult),
    exec_steps steps s r
      = ({ s with pending := s.pending ++ writes_of steps },
          apply_updates steps r, none) := by
  induction steps with
  | nil => intro s r; simp [exec_steps, writes_of, apply_updates]
  | cons st rest ih =>
      intro s r
      have hrest : ∀ m, ImportStep.raise_exn m ∉ rest := by
        intro m hm
        exact h m (List.mem_cons_of_mem st hm)
      cases st with
      | write row =>
          rw [exec_steps, ih hrest]
          simp [writes_of, apply_updates, List.append_assoc]
      | update f =>
          rw [exec_steps, ih hrest]
          simp [writes_of, apply_updates]
      | raise_exn m =>
          exact absurd (List.mem_cons_self _ _) (h m)

lemma exec_steps_first_raise (pre : List ImportStep) (m : String)
    (post : List ImportStep)
    (h : ∀ m2, ImportStep.raise_exn m2 ∉ pre) :
    ∀ (s : Session) (r : ImportResult),
    exec_steps (pre ++ ImportStep.raise_exn m :: post) s r
      = ({ s with pending := s.pending ++ writes_of pre },
          apply_updates pre r, some m) := by
  induction pre with
  | nil => intro s r; simp [exec_steps, writes_of, apply_updates]
  | cons st rest ih =>
      intro s r
      have hrest : ∀ m2, ImportStep.raise_exn m2 ∉ rest := by
        intro m2 hm
        exact h m2 (List.mem_cons_of_mem st hm)
      cases st with
      | write row =>
          rw [List.cons_append, exec_steps, ih hrest]
          simp [writes_of, apply_updates, List.append_assoc]
      | update f =>
          rw [List.cons_append, exec_steps, ih hrest]
          simp [writes_of, apply_updates]
      | raise_exn m2 =>
          exact absurd (List.mem_cons_self _ _) (h m2)

/-- C5: run-level atomicity of `run_import`.  When no exception is
raised the returned result has status "completed" and the run's staged
writes are committed; when an exception is raised, the session is
rolled back (committed rows unchanged, pending writes dropped), the
status is "failed", and "Import failed: <msg>" is appended to the
result's error list. -/
theorem C5_run_atomicity (steps : List ImportStep) (s : Session) :
    ((∀ m, ImportStep.raise_exn m ∉ steps) →
        (run_import steps s).2.status = "completed"
        ∧ (run_import steps s).1.committed = s.committed ++ s.pending
            ++ writes_of steps
        ∧ (run_import steps s).1.pending = []
        ∧ (run_import steps s).2.errors = (apply_updates steps {}).errors)
    ∧ (∀ (pre : List ImportStep) (m : String) (post : List ImportStep),
        steps = pre ++ ImportStep.raise_exn m :: post →
        (∀ m2, ImportStep.raise_exn m2 ∉ pre) →
        (run_import steps s).2.status = "failed"
        ∧ (run_import steps s).1.committed = s.committed
        ∧ (run_import steps s).1.pending = []
        ∧ (run_import steps s).2.errors
            = (apply_updates pre {}).errors ++ ["Import failed: " ++ m]) := by
  constructor
  · intro h
    rw [run_import, exec_steps_no_raise steps h s {}]
    refine ⟨rfl, ?_, rfl, rfl⟩
    simp [Session.commit, List.append_assoc]
  · intro pre m post hsteps h
    subst hsteps
    rw [run_import, exec_steps_first_raise pre m post h s {}]
    exact ⟨rfl, rfl, rfl, rfl⟩

/-- Witness for C5, both branches at concrete step lists: a run whose
third step raises "boom" fails with its writes rolled back and the
message recorded; the same run without the raise completes with both
writes committed. -/
theorem C5_run_atomicity_witness :
    (run_import [ImportStep.write 1, ImportStep.raise_exn "boom",
        ImportStep.write 2] {}).2.status = "failed"
    ∧ (run_import [ImportStep.write 1, ImportStep.raise_exn "boom",
        ImportStep.write 2] {}).1.committed = []
    ∧ (run_import [ImportStep.write 1, ImportStep.raise_exn "boom",
        ImportStep.write 2] {}).2.errors = ["Import failed: boom"]
    ∧ (run_import [ImportStep.write 1, ImportStep.write 2] {}).2.status
        = "completed"
    ∧ (run_import [ImportStep.write 1, ImportStep.write 2] {}).1.committed
        = [1, 2] := by
  have hfail := (C5_run_atomicity
    [ImportStep.write 1, ImportStep.raise_exn "boom", ImportStep.write 2]
    {}).2 [ImportStep.write 1] "boom" [ImportStep.write 2] rfl
    (by intro m2 hm; simp at hm)
  have hok := (C5_run_atomicity
    [ImportStep.write 1, ImportStep.write 2] {}).1
    (by intro m hm; simp at hm)
  refine ⟨hfail.1, hfail.2.1, ?_, hok.1, ?_⟩
  · rw [hfail.2.2.2]
    rfl
  · rw [hok.2.1]
    rfl

/-! ## adapters/ufc.py: `_parse_fight_card` postprocessing

`_parse_fight_card` first extracts a raw fight list from the page via
the fallback text parser; the embedding takes that list as input and
models the two filtering passes and the renumbering loop that follow
(ufc.py lines 368-404). -/

/-- The fields of `RawFight` (adapters/base.py) that
`_parse_fight_card` reads or mutates. -/
structure RawFight where
  fighter1_name : String
  fighter2_name : String
  is_title_fight : Bool := false
  is_main_event : Bool := false
  scheduled_rounds : Nat := 3
  fight_order : Option Nat := none
  deriving Repr, DecidableEq

/-- `get_last_name`: `name.lower().strip().split()`, last token, or ""
when there is none. -/
def get_last_name (name : String) : String :=
  match (split_ws (strip_chars (lower_chars name.data))).getLast? with
  | some p => String.mk p
  | none => ""

/-- Lexicographic strict order on char lists (used only to pick a
canonical orientation of an unordered pair). -/
def chars_lt : List Char → List Char → Bool
  | [], [] => false
  | [], _ :: _ => true
  | _ :: _, [] => false
  | a :: as, b :: bs =>
      if a < b then true else if b < a then false else chars_lt as bs

/-- The `frozenset([last1, last2])` matchup key, canonicalized as a
sorted pair (the two names are distinct whenever the key is used). -/
def canon_pair (a b : String) : String × String :=
  if chars_lt a.data b.data then (a, b) else (b, a)

/-- The matchup key of a fight. -/
def matchup (f : RawFight) : String × String :=
  canon_pair (get_last_name f.fighter1_name) (get_last_name f.fighter2_name)

/-- The second pass: drop self-pairings and fights whose canonical
last-name pair was already seen, keeping the first occurrence. -/
def dedup_fights : List RawFight → List (String × String) → List RawFight
  | [], _ => []
  | f :: fs, seen =>
      let last1 := get_last_name f.fighter1_name
      let last2 := get_last_name f.fighter2_name
      if last1 = "" ∨ last2 = "" ∨ last1 = last2 then dedup_fights fs seen
      else
        let mu := canon_pair last1 last2
        if mu ∈ seen then dedup_fights fs seen
        else f :: dedup_fights fs (mu :: seen)

/-- The renumbering loop body at index `i` of a card of `total`
fights: `fight_order = total - i`, main event iff order 1, and 5
scheduled rounds for the main event or a title fight. -/
def renumber_fight (total i : Nat) (f : RawFight) : RawFight :=
  let ord := total - i
  let is_main := ord == 1
  { f with
    fight_order := some ord
    is_main_event := is_main
    scheduled_rounds := if is_main || f.is_title_fight then 5
                        else f.scheduled_rounds }

/-- The renumbering loop from index `i`. -/
def renumber_from (total : Nat) : Nat → List RawFight → List RawFight
  | _, [] => []
  | i, f :: fs => renumber_fight total i f :: renumber_from total (i + 1) fs

/-- `_parse_fight_card` from the point where the fallback parser has
produced `fights`: keep fights where both names have at least two
tokens, dedup by canonical last-name pair, renumber. -/
def parse_fight_card_post (fights : List RawFight) : List RawFight :=
  let valid := fights.filter fun f =>
    decide ((split_ws f.fighter1_name.data).length ≥ 2)
      && decide ((split_ws f.fighter2_name.data).length ≥ 2)
  let unique := dedup_fights valid []
  renumber_from unique.length 0 unique

lemma dedup_fights_matchups (l : List RawFight) :
    ∀ seen : List (String × String),
    ((dedup_fights l seen).map matchup).Nodup
    ∧ ∀ mu ∈ (dedup_fights l seen).map matchup, mu ∉ seen := by
  induction l with
  | nil => intro seen; simp [dedup_fights]
  | cons f fs ih =>
      intro seen
      rw [dedup_fights]
      by_cases h1 : get_last_name f.fighter1_name = ""
          ∨ get_last_name f.fighter2_name = ""
          ∨ get_last_name f.fighter1_name = get_last_name f.fighter2_name
      · rw [if_pos h1]
        exact ih seen
      · rw [if_neg h1]
        by_cases h2 : canon_pair (get_last_name f.fighter1_name)
            (get_last_name f.fighter2_name) ∈ seen
        · rw [if_pos h2]
          exact ih seen
        · rw [if_neg h2]
          obtain ⟨hnd, hns⟩ := ih
            (canon_pair (get_last_name f.fighter1_name)
              (get_last_name f.fighter2_name) :: seen)
          constructor
          · rw [List.map_cons, List.nodup_cons]
            constructor
            · intro hmem
              exact (hns _ hmem) (List.mem_cons_self _ _)
            · exact hnd
          · intro mu hmu
            rw [List.map_cons, List.mem_cons] at hmu
            rcases hmu with hmu | hmu
            · rw [hmu]
              exact h2
            · intro hseen
              exact (hns mu hmu) (List.mem_cons_of_mem _ hseen)

lemma dedup_fights_no_self (l : List RawFight) :
    ∀ seen, ∀ f ∈ dedup_fights l seen,
    get_last_name f.fighter1_name ≠ ""
    ∧ get_last_name f.fighter2_name ≠ ""
    ∧ get_last_name f.fighter1_name ≠ get_last_name f.fighter2_name := by
  induction l with
  | nil => intro seen f hf; simp [dedup_fights] at hf
  | cons g gs ih =>
      intro seen f hf
      rw [dedup_fights] at hf
      by_cases h1 : get_last_name g.fighter1_name = ""
          ∨ get_last_name g.fighter2_name = ""
          ∨ get_last_name g.fighter1_name = get_last_name g.fighter2_name
      · rw [if_pos h1] at hf
        exact ih seen f hf
      · rw [if_neg h1] at hf
        push_neg at h1
        by_cases h2 : canon_pair (get_last_name g.fighter1_name)
            (get_last_name g.fighter2_name) ∈ seen
        · rw [if_pos h2] at hf
          exact ih seen f hf
        · rw [if_neg h2] at hf
          rcases List.mem_cons.1 hf with rfl | hf
          · exact ⟨h1.1, h1.2.1, h1.2.2⟩
          · exact ih _ f hf

lemma dedup_fights_sublist (l : List RawFight) :
    ∀ seen, (dedup_fights l seen).Sublist l := by
  induction l with
  | nil => intro seen; simp [dedup_fights]
  | cons g gs ih =>
      intro seen
      rw [dedup_fights]
      by_cases h1 : get_last_name g.fighter1_name = ""
          ∨ get_last_name g.fighter2_name = ""
          ∨ get_last_name g.fighter1_name = get_last_name g.fighter2_name
      · rw [if_pos h1]
        exact (ih seen).cons g
      · rw [if_neg h1]
        by_cases h2 : canon_pair (get_last_name g.fighter1_name)
            (get_last_name g.fighter2_name) ∈ seen
        · rw [if_pos h2]
          exact (ih seen).cons g
        · rw [if_neg h2]
          exact (ih _).cons₂ g

lemma renumber_from_length (total : Nat) :
    ∀ (i : Nat) (l : List RawFight),
    (renumber_from total i l).length = l.length := by
  intro i l
  induction l generalizing i with
  | nil => rfl
  | cons f fs ih => simp [renumber_from, ih]

lemma renumber_from_map_names (total : Nat) :
    ∀ (i : Nat) (l : List RawFight),
    (renumber_from total i l).map
        (fun f => (f.fighter1_name, f.fighter2_name))
      = l.map (fun f => (f.fighter1_name, f.fighter2_name)) := by
  intro i l
  induction l generalizing i with
  | nil => rfl
  | cons f fs ih => simp [renumber_from, renumber_fight, ih]

lemma renumber_from_dropLast_main (total : Nat) :
    ∀ (i : Nat) (l : List RawFight), i + l.length = total →
    ∀ f ∈ (renumber_from total i l).dropLast, f.is_main_event = false := by
  intro i l
  induction l generalizing i with
  | nil => intro _ f hf; simp [renumber_from] at hf
  | cons g gs ih =>
      intro htot f hf
      cases gs with
      | nil => simp [renumber_from] at hf
      | cons g2 gs2 =>
          rw [renumber_from, renumber_from, List.dropLast_cons₂,
            ← renumber_from] at hf
          rcases List.mem_cons.1 hf with rfl | hf
          · show ((total - i == 1) : Bool) = false
            have : total - i ≠ 1 := by
              simp [List.length_cons] at htot
              omega
            simpa using this
          · refine ih (i + 1) ?_ f hf
            simp [List.length_cons] at htot ⊢
            omega

lemma renumber_from_getLast (total : Nat) :
    ∀ (i : Nat) (l : List RawFight) (f : RawFight), i + l.length = total →
    (renumber_from total i l).getLast? = some f →
    f.is_main_event = true ∧ f.scheduled_rounds = 5
    ∧ f.fight_order = some 1 := by
  intro i l
  induction l generalizing i with
  | nil => intro f _ hf; simp [renumber_from] at hf
  | cons g gs ih =>
      intro f htot hf
      cases gs with
      | nil =>
          rw [renumber_from, renumber_from] at hf
          simp only [List.getLast?_singleton, Option.some.injEq] at hf
          have hord : total - i = 1 := by
            simp [List.length_cons] at htot
            omega
          subst hf
          unfold renumber_fight
          rw [hord]
          exact ⟨rfl, rfl, rfl⟩
      | cons g2 gs2 =>
          rw [renumber_from, renumber_from, List.getLast?_cons_cons,
            ← renumber_from] at hf
          refine ih (i + 1) f ?_ hf
          simp [List.length_cons] at htot ⊢
          omega

lemma canon_pair_eq_cases {a b c d : String}
    (h : canon_pair a b = canon_pair c d) :
    (a = c ∧ b = d) ∨ (a = d ∧ b = c) := by
  unfold canon_pair at h
  split_ifs at h <;> simp only [Prod.mk.injEq] at h <;> tauto

lemma matchup_ne_of_bad {f g : RawFight}
    (hf1 : get_last_name f.fighter1_name ≠ "")
    (hf2 : get_last_name f.fighter2_name ≠ "")
    (hf12 : get_last_name f.fighter1_name ≠ get_last_name f.fighter2_name)
    (hg : get_last_name g.fighter1_name = ""
      ∨ get_last_name g.fighter2_name = ""
      ∨ get_last_name g.fighter1_name = get_last_name g.fighter2_name) :
    matchup g ≠ matchup f := by
  intro heq
  unfold matchup at heq
  rcases canon_pair_eq_cases heq with ⟨h1, h2⟩ | ⟨h1, h2⟩ <;>
    rcases hg with hg | hg | hg <;> simp_all

/-- The fight that survives for a matchup is the *first* fight of the
input list bearing that matchup: every record the dedup pass keeps is
the first `find?` hit for its own canonical last-name pair. -/
lemma dedup_fights_first_occurrence :
    ∀ (l : List RawFight) (seen : List (String × String)),
    ∀ f ∈ dedup_fights l seen,
    l.find? (fun g => matchup g == matchup f) = some f := by
  intro l
  induction l with
  | nil => intro seen f hf; simp [dedup_fights] at hf
  | cons g gs ih =>
      intro seen f hf
      rw [dedup_fights] at hf
      by_cases h1 : get_last_name g.fighter1_name = ""
          ∨ get_last_name g.fighter2_name = ""
          ∨ get_last_name g.fighter1_name = get_last_name g.fighter2_name
      · rw [if_pos h1] at hf
        have hns := dedup_fights_no_self gs seen f hf
        have hne : matchup g ≠ matchup f :=
          matchup_ne_of_bad hns.1 hns.2.1 hns.2.2 h1
        rw [List.find?_cons_of_neg _ (by simpa using hne)]
        exact ih seen f hf
      · rw [if_neg h1] at hf
        by_cases h2 : canon_pair (get_last_name g.fighter1_name)
            (get_last_name g.fighter2_name) ∈ seen
        · rw [if_pos h2] at hf
          have hnm : matchup f ∉ seen :=
            (dedup_fights_matchups gs seen).2 (matchup f)
              (List.mem_map.2 ⟨f, hf, rfl⟩)
          have hne : matchup g ≠ matchup f := by
            intro he
            apply hnm
            rw [← he]
            exact h2
          rw [List.find?_cons_of_neg _ (by simpa using hne)]
          exact ih seen f hf
        · rw [if_neg h2] at hf
          rcases List.mem_cons.1 hf with rfl | hf2
          · exact List.find?_cons_of_pos _ (by simp)
          · have hnm : matchup f
                ∉ canon_pair (get_last_name g.fighter1_name)
                    (get_last_name g.fighter2_name) :: seen :=
              (dedup_fights_matchups gs _).2 (matchup f)
                (List.mem_map.2 ⟨f, hf2, rfl⟩)
            have hne : matchup g ≠ matchup f := by
              intro he
              apply hnm
              rw [← he]
              exact List.mem_cons_self _ _
            rw [List.find?_cons_of_neg _ (by simpa using hne)]
            exact ih _ f hf2

/-- First example fight for the fight-card theorems. -/
def cex_fight1 : RawFight :=
  { fighter1_name := "Alice Aard", fighter2_name := "Bob Best" }

/-- Second example fight. -/
def cex_fight2 : RawFight :=
  { fighter1_name := "Carl Cole", fighter2_name := "Dan Drum" }

/-- C9 counterexample: on a two-fight card the renumber loop
(`fight_order = total - i`) gives the *first* listed bout order 2 and
the *last* bout order 1, so the last — not the first — element of the
deduplicated list is marked main event. -/
theorem C9_counterexample :
    ((parse_fight_card_post [cex_fight1, cex_fight2]).map
        (fun f => f.is_main_event)) = [false, true]
    ∧ ((parse_fight_card_post [cex_fight1, cex_fight2]).map
        (fun f => f.fight_order)) = [some 2, some 1] := by
  exact ⟨rfl, rfl⟩

/-- C9 (amended): the returned fight list has at most one fight per
canonical unordered pair of normalized last names, and it is the FIRST
occurrence that is kept: each output fight carries exactly the names of
the first fight among the valid (two-token-named) ones whose canonical
last-name pair matches it (`find?` returns that fight).  No output fight
has two names reducing to the same last name, and after renumbering the
*last* bout of the deduplicated list is the unique fight marked as
main event, with `fight_order = 1` and 5 scheduled rounds. -/
theorem C9_fight_card_amended (fights : List RawFight) :
    ((parse_fight_card_post fights).map matchup).Nodup
    ∧ (∀ f ∈ parse_fight_card_post fights,
        get_last_name f.fighter1_name ≠ get_last_name f.fighter2_name)
    ∧ (∀ f ∈ parse_fight_card_post fights,
        ((fights.filter fun g =>
            decide ((split_ws g.fighter1_name.data).length ≥ 2)
              && decide ((split_ws g.fighter2_name.data).length ≥ 2)).find?
          (fun g => matchup g == matchup f)).map
            (fun g => (g.fighter1_name, g.fighter2_name))
          = some (f.fighter1_name, f.fighter2_name))
    ∧ (∀ f ∈ (parse_fight_card_post fights).dropLast,
        f.is_main_event = false)
    ∧ (∀ f, (parse_fight_card_post fights).getLast? = some f →
        f.is_main_event = true ∧ f.scheduled_rounds = 5
        ∧ f.fight_order = some 1) := by
  have hout : parse_fight_card_post fights
      = renumber_from
          (dedup_fights (fights.filter fun f =>
            decide ((split_ws f.fighter1_name.data).length ≥ 2)
              && decide ((split_ws f.fighter2_name.data).length ≥ 2)) []).length
          0
          (dedup_fights (fights.filter fun f =>
            decide ((split_ws f.fighter1_name.data).length ≥ 2)
              && decide ((split_ws f.fighter2_name.data).length ≥ 2)) []) := rfl
  set valid := fights.filter fun f =>
    decide ((split_ws f.fighter1_name.data).length ≥ 2)
      && decide ((split_ws f.fighter2_name.data).length ≥ 2) with hvalid
  set ded := dedup_fights valid [] with hded
  set total := ded.length with htotal
  have hnames := renumber_from_map_names total 0 ded
  have hmaps : (parse_fight_card_post fights).map matchup
      = ded.map matchup := by
    rw [hout]
    have h1 : (renumber_from total 0 ded).map matchup
        = ((renumber_from total 0 ded).map
            (fun f => (f.fighter1_name, f.fighter2_name))).map
            (fun p => canon_pair (get_last_name p.1) (get_last_name p.2)) := by
      rw [List.map_map]
      rfl
    have h2 : ded.map matchup
        = (ded.map (fun f => (f.fighter1_name, f.fighter2_name))).map
            (fun p => canon_pair (get_last_name p.1) (get_last_name p.2)) := by
      rw [List.map_map]
      rfl
    rw [h1, hnames, ← h2]
  refine ⟨?_, ?_, ?_, ?_, ?_⟩
  · rw [hmaps]
    exact (dedup_fights_matchups valid []).1
  · intro f hf
    have hmem : (f.fighter1_name, f.fighter2_name)
        ∈ (parse_fight_card_post fights).map
            (fun f => (f.fighter1_name, f.fighter2_name)) :=
      List.mem_map.2 ⟨f, hf, rfl⟩
    rw [hout, hnames] at hmem
    rcases List.mem_map.1 hmem with ⟨g, hg, hgeq⟩
    have hnp := dedup_fights_no_self valid [] g hg
    have h1 : g.fighter1_name = f.fighter1_name := congrArg Prod.fst hgeq
    have h2 : g.fighter2_name = f.fighter2_name := congrArg Prod.snd hgeq
    rw [← h1, ← h2]
    exact hnp.2.2
  · intro f hf
    have hmem : (f.fighter1_name, f.fighter2_name)
        ∈ (parse_fight_card_post fights).map
            (fun f => (f.fighter1_name, f.fighter2_name)) :=
      List.mem_map.2 ⟨f, hf, rfl⟩
    rw [hout, hnames] at hmem
    rcases List.mem_map.1 hmem with ⟨d, hd, hdeq⟩
    have h1 : d.fighter1_name = f.fighter1_name := congrArg Prod.fst hdeq
    have h2 : d.fighter2_name = f.fighter2_name := congrArg Prod.snd hdeq
    have hmu : matchup d = matchup f := by
      unfold matchup
      rw [h1, h2]
    have hfind := dedup_fights_first_occurrence valid [] d hd
    rw [hmu] at hfind
    rw [hfind, Option.map_some', h1, h2]
  · intro f hf
    rw [hout] at hf
    exact renumber_from_dropLast_main total 0 ded (by omega) f hf
  · intro f hf
    rw [hout] at hf
    exact renumber_from_getLast total 0 ded f (by omega) hf

/-- Witness for C9 (amended) on a concrete two-fight card: the closing
(last) bout is the main event with fight order 1 and 5 rounds. -/
theorem C9_fight_card_amended_witness :
    ((parse_fight_card_post [cex_fight1, cex_fight2]).getLast?.map
        (fun f => (f.is_main_event, f.scheduled_rounds, f.fight_order)))
      = some (true, 5, some 1) := by
  have hlast : (parse_fight_card_post [cex_fight1, cex_fight2]).getLast?
      = some (renumber_fight 2 1 cex_fight2) := by decide
  have h := (C9_fight_card_amended [cex_fight1, cex_fight2]).2.2.2.2
    (renumber_fight 2 1 cex_fight2) hlast
  rw [hlast]
  simp [h.1, h.2.1, h.2.2]

/-! ## transformers.py: normalize_name, name_similarity, Deduplicator

`normalize_name`'s unicode NFKD + combining-mark removal is the
identity on the ASCII names modelled here; `\\w` is modelled as ASCII
alphanumerics plus underscore.  Python sets of name tokens are
modelled as deduplicated lists, and dicts as association lists. -/

/-- Collapse whitespace runs to single spaces (`re.sub(r"\\s+", " ")`). -/
def collapse_ws (s : List Char) : List Char :=
  s.foldr
    (fun c acc =>
      if c == ' ' then
        match acc with
        | ' ' :: _ => acc
        | _ => ' ' :: acc
      else c :: acc)
    []

/-- A character kept by `re.sub(r"[^\\w\\s\\-\\']", "", name)`. -/
def is_name_char (c : Char) : Bool :=
  c.isAlpha || c.isDigit || c == '_' || c == ' ' || c == '-'
    || c == Char.ofNat 39

/-- `normalize_name`: lowercase, strip, drop special characters,
collapse whitespace. -/
def normalize_name (name : String) : String :=
  if name.isEmpty then ""
  else String.mk (collapse_ws ((strip_chars (lower_chars name.data)).filter
    is_name_char))

/-- `name_similarity`: 1.0 on equal normalization, 0.9 on substring
containment, otherwise Jaccard similarity of the token sets with a
+0.3 (capped) bonus when the last tokens match. -/
def name_similarity (name1 name2 : String) : ℚ :=
  let n1 := normalize_name name1
  let n2 := normalize_name name2
  if n1.isEmpty || n2.isEmpty then 0
  else if n1 == n2 then 1
  else if contains_seg n1.data n2.data || contains_seg n2.data n1.data then
    9/10
  else
    let parts1 := (split_ws n1.data).dedup
    let parts2 := (split_ws n2.data).dedup
    if parts1.isEmpty || parts2.isEmpty then 0
    else
      let inter := (parts1.filter (fun w => parts2.contains w)).length
      let uni := parts1.length
        + (parts2.filter (fun w => !parts1.contains w)).length
      let jaccard : ℚ := (inter : ℚ) / (uni : ℚ)
      match (split_ws n1.data).getLast?, (split_ws n2.data).getLast? with
      | some w1, some w2 =>
          if w1 == w2 then min 1 (jaccard + 3/10) else jaccard
      | _, _ => jaccard

/-- `RawFighter` (adapters/base.py), the fields `merge_fighters`
touches.  Dates are day ordinals; `raw_data` is an association list. -/
structure RawFighter where
  first_name : String
  last_name : String
  nickname : Option String := none
  date_of_birth : Option Nat := none
  nationality : Option String := none
  hometown : Option String := none
  height_cm : Option ℚ := none
  weight_kg : Option ℚ := none
  reach_cm : Option ℚ := none
  leg_reach_cm : Option ℚ := none
  weight_class : Option String := none
  stance : Option String := none
  is_active : Bool := true
  ufc_id : Option String := none
  espn_id : Option String := none
  wins : Nat := 0
  losses : Nat := 0
  draws : Nat := 0
  no_contests : Nat := 0
  ko_wins : Nat := 0
  submission_wins : Nat := 0
  decision_wins : Nat := 0
  source : Option String := none
  source_url : Option String := none
  raw_data : List (String × String) := []
  deriving Repr, DecidableEq

/-- Python `a or b` on strings ("" is falsy). -/
def or_str (a b : String) : String := if a.isEmpty then b else a

/-- Python `a or b` on optional strings (`None` and "" falsy). -/
def or_opt (a b : Option String) : Option String :=
  match a with
  | none => b
  | some s => if s.isEmpty then b else some s

/-- Python `a or b` on optional floats (`None` and 0.0 falsy). -/
def or_optq (a b : Option ℚ) : Option ℚ :=
  match a with
  | none => b
  | some v => if v == 0 then b else some v

/-- Python `a or b` on optional dates (every `date` is truthy). -/
def or_date (a b : Option Nat) : Option Nat :=
  match a with
  | none => b
  | some d => some d

/-- Python `{**sec, **pri}`: sec's keys in order with pri overriding,
then pri's new keys. -/
def dict_update (sec pri : List (String × String)) :
    List (String × String) :=
  (sec.map fun kv =>
    match pri.find? (fun kv2 => kv2.1 == kv.1) with
    | some kv2 => kv2
    | none => kv)
  ++ pri.filter fun kv2 => !(sec.any fun kv => kv.1 == kv2.1)

/-- `Deduplicator.merge_fighters`: prefer the primary's truthy scalar
fields, take the maximum of the cumulative counters, union-merge
`raw_data` with primary precedence. -/
def merge_fighters (primary secondary : RawFighter) : RawFighter :=
  { first_name := or_str primary.first_name secondary.first_name
    last_name := or_str primary.last_name secondary.last_name
    nickname := or_opt primary.nickname secondary.nickname
    date_of_birth := or_date primary.date_of_birth secondary.date_of_birth
    nationality := or_opt primary.nationality secondary.nationality
    hometown := or_opt primary.hometown secondary.hometown
    height_cm := or_optq primary.height_cm secondary.height_cm
    weight_kg := or_optq primary.weight_kg secondary.weight_kg
    reach_cm := or_optq primary.reach_cm secondary.reach_cm
    leg_reach_cm := or_optq primary.leg_reach_cm secondary.leg_reach_cm
    weight_class := or_opt primary.weight_class secondary.weight_class
    stance := or_opt primary.stance secondary.stance
    is_active := primary.is_active
    ufc_id := or_opt primary.ufc_id secondary.ufc_id
    espn_id := or_opt primary.espn_id secondary.espn_id
    wins := max primary.wins secondary.wins
    losses := max primary.losses secondary.losses
    draws := max primary.draws secondary.draws
    no_contests := max primary.no_contests secondary.no_contests
    ko_wins := max primary.ko_wins secondary.ko_wins
    submission_wins := max primary.submission_wins secondary.submission_wins
    decision_wins := max primary.decision_wins secondary.decision_wins
    source := primary.source
    source_url := or_opt primary.source_url secondary.source_url
    raw_data := dict_update secondary.raw_data primary.raw_data }

/-- `f"{f.first_name} {f.last_name}"`. -/
def full_name (f : RawFighter) : String :=
  f.first_name ++ " " ++ f.last_name

/-- Out-of-range placeholder (never reached on the valid indices the
pair finder produces). -/
def dflt_fighter : RawFighter := { first_name := "", last_name := "" }

/-- `Deduplicator.find_duplicate_fighters`: all index pairs i < j whose
full-name similarity reaches the threshold, i ascending then j
ascending. -/
def find_duplicate_fighters (threshold : ℚ) (fighters : List RawFighter) :
    List (Nat × Nat) :=
  (List.range fighters.length).flatMap fun i =>
    ((List.range fighters.length).filter fun j => decide (i < j)).filterMap
      fun j =>
        if name_similarity (full_name (fighters.getD i dflt_fighter))
            (full_name (fighters.getD j dflt_fighter)) ≥ threshold then
          some (i, j)
        else none

/-- Look up `merged_indices.get(i)`. -/
def assoc_get (mer : List (Nat × RawFighter)) (i : Nat) : Option RawFighter :=
  (mer.find? fun p => p.1 == i).map (fun p => p.2)

/-- The loop over candidate pairs: skip a pair when either side was
already removed, otherwise merge j into i (using the previously merged
record for i when present) and mark j removed. -/
def process_pairs (fighters : List RawFighter) :
    List (Nat × Nat) → List Nat → List (Nat × RawFighter) →
    List Nat × List (Nat × RawFighter)
  | [], rem, mer => (rem, mer)
  | (i, j) :: rest, rem, mer =>
      if i ∈ rem ∨ j ∈ rem then process_pairs fighters rest rem mer
      else
        let primary :=
          match assoc_get mer i with
          | some f => f
          | none => fighters.getD i dflt_fighter
        let secondary := fighters.getD j dflt_fighter
        process_pairs fighters rest (j :: rem)
          ((i, merge_fighters primary secondary) :: mer)

/-- The record emitted for a kept index: the merged record when one
exists, the original otherwise. -/
def merged_entry (fighters : List RawFighter)
    (mer : List (Nat × RawFighter)) (i : Nat) : RawFighter :=
  match assoc_get mer i with
  | some f => f
  | none => fighters.getD i dflt_fighter

/-- The result-building loop of `deduplicate_fighters`. -/
def build_result (fighters : List RawFighter) (rem : List Nat)
    (mer : List (Nat × RawFighter)) : List RawFighter :=
  (List.range fighters.length).filterMap fun i =>
    if i ∈ rem then none else some (merged_entry fighters mer i)

/-- `Deduplicator.deduplicate_fighters`. -/
def deduplicate_fighters (threshold : ℚ) (fighters : List RawFighter) :
    List RawFighter :=
  if fighters.isEmpty then []
  else
    let dups := find_duplicate_fighters threshold fighters
    let st := process_pairs fighters dups [] []
    build_result fighters st.1 st.2

/-- A fighter record with an empty first name (Python-falsy). -/
def cex_dup_a : RawFighter := { first_name := "", last_name := "Mc Gregor" }

/-- "Conor Mc Gregor". -/
def cex_dup_b : RawFighter := { first_name := "Conor", last_name := "Mc Gregor" }

/-- "Gregor Mc Conor" — same token set as `cex_dup_b`, different
string. -/
def cex_dup_c : RawFighter := { first_name := "Gregor Mc", last_name := "Conor" }

lemma cex_hd1 : find_duplicate_fighters (17/20)
    [cex_dup_a, cex_dup_b, cex_dup_c] = [(0,1), (1,2)] := by
  have hAB : name_similarity (full_name cex_dup_a) (full_name cex_dup_b)
      ≥ 17/20 := by
    rw [show name_similarity (full_name cex_dup_a) (full_name cex_dup_b)
      = 9/10 from rfl]
    norm_num
  have hAC : ¬ name_similarity (full_name cex_dup_a) (full_name cex_dup_c)
      ≥ 17/20 := by
    rw [show name_similarity (full_name cex_dup_a) (full_name cex_dup_c)
      = ((2:Nat):ℚ)/((3:Nat):ℚ) from rfl]
    push_cast
    norm_num
  have hBC : name_similarity (full_name cex_dup_b) (full_name cex_dup_c)
      ≥ 17/20 := by
    rw [show name_similarity (full_name cex_dup_b) (full_name cex_dup_c)
      = ((3:Nat):ℚ)/((3:Nat):ℚ) from rfl]
    push_cast
    norm_num
  unfold find_duplicate_fighters
  rw [show ([cex_dup_a, cex_dup_b, cex_dup_c] : List RawFighter).length = 3
        from rfl,
      show List.range 3 = [0, 1, 2] from rfl]
  simp only [List.flatMap_cons, List.flatMap_nil, List.filter_cons,
    List.filter_nil, List.filterMap_cons, List.filterMap_nil,
    List.getD_cons_zero, List.getD_cons_succ]
  norm_num
  simp only [List.filterMap_cons, List.filterMap_nil,
    List.getElem?_cons_zero, List.getElem?_cons_succ, Option.getD_some]
  rw [if_pos (ge_iff_le.1 hAB), if_pos (ge_iff_le.1 hBC)]
  rw [if_neg (fun hc => hAC (ge_iff_le.2 hc))]
  rfl

lemma cex_dedup1 : deduplicate_fighters (17/20)
    [cex_dup_a, cex_dup_b, cex_dup_c]
    = [merge_fighters cex_dup_a cex_dup_b, cex_dup_c] := by
  have h0 : deduplicate_fighters (17/20) [cex_dup_a, cex_dup_b, cex_dup_c]
      = build_result [cex_dup_a, cex_dup_b, cex_dup_c]
          (process_pairs [cex_dup_a, cex_dup_b, cex_dup_c]
            (find_duplicate_fighters (17/20)
              [cex_dup_a, cex_dup_b, cex_dup_c]) [] []).1
          (process_pairs [cex_dup_a, cex_dup_b, cex_dup_c]
            (find_duplicate_fighters (17/20)
              [cex_dup_a, cex_dup_b, cex_dup_c]) [] []).2 := rfl
  rw [h0, cex_hd1]
  rfl

lemma cex_hd2 : find_duplicate_fighters (17/20)
    [merge_fighters cex_dup_a cex_dup_b, cex_dup_c] = [(0,1)] := by
  have hMC : name_similarity (full_name (merge_fighters cex_dup_a cex_dup_b))
      (full_name cex_dup_c) ≥ 17/20 := by
    rw [show name_similarity (full_name (merge_fighters cex_dup_a cex_dup_b))
      (full_name cex_dup_c) = ((3:Nat):ℚ)/((3:Nat):ℚ) from rfl]
    push_cast
    norm_num
  unfold find_duplicate_fighters
  rw [show ([merge_fighters cex_dup_a cex_dup_b, cex_dup_c]
        : List RawFighter).length = 2 from rfl,
      show List.range 2 = [0, 1] from rfl]
  simp only [List.flatMap_cons, List.flatMap_nil, List.filter_cons,
    List.filter_nil, List.filterMap_cons, List.filterMap_nil,
    List.getD_cons_zero, List.getD_cons_succ]
  norm_num
  simp only [List.filterMap_cons, List.filterMap_nil,
    List.getElem?_cons_zero, List.getElem?_cons_succ, Option.getD_some]
  rw [if_pos (ge_iff_le.1 hMC)]

lemma cex_dedup2 : deduplicate_fighters (17/20)
    [merge_fighters cex_dup_a cex_dup_b, cex_dup_c]
    = [merge_fighters (merge_fighters cex_dup_a cex_dup_b) cex_dup_c] := by
  have h0 : deduplicate_fighters (17/20)
      [merge_fighters cex_dup_a cex_dup_b, cex_dup_c]
      = build_result [merge_fighters cex_dup_a cex_dup_b, cex_dup_c]
          (process_pairs [merge_fighters cex_dup_a cex_dup_b, cex_dup_c]
            (find_duplicate_fighters (17/20)
              [merge_fighters cex_dup_a cex_dup_b, cex_dup_c]) [] []).1
          (process_pairs [merge_fighters cex_dup_a cex_dup_b, cex_dup_c]
            (find_duplicate_fighters (17/20)
              [merge_fighters cex_dup_a cex_dup_b, cex_dup_c]) [] []).2 := rfl
  rw [h0, cex_hd2]
  rfl

/-- C6 counterexample: `deduplicate_fighters` is not idempotent.  With
threshold 0.85, on [A, B, C] = ["" "Mc Gregor", "Conor" "Mc Gregor",
"Gregor Mc" "Conor"] the first pass merges B into A (substring rule,
0.9) and removes B; the merged record takes B's first name because A's
was empty.  Pair (B, C) (token-set Jaccard 1.0) is skipped since B was
removed, and (A, C) scored only 2/3, so C survives.  A second pass now
scores the merged record "Conor Mc Gregor" against "Gregor Mc Conor"
at 1.0 and merges again: one pass returns two records, a second pass
returns one. -/
theorem C6_counterexample :
    deduplicate_fighters (17/20) [cex_dup_a, cex_dup_b, cex_dup_c]
      = [merge_fighters cex_dup_a cex_dup_b, cex_dup_c]
    ∧ deduplicate_fighters (17/20)
        (deduplicate_fighters (17/20) [cex_dup_a, cex_dup_b, cex_dup_c])
      = [merge_fighters (merge_fighters cex_dup_a cex_dup_b) cex_dup_c]
    ∧ deduplicate_fighters (17/20)
        (deduplicate_fighters (17/20) [cex_dup_a, cex_dup_b, cex_dup_c])
      ≠ deduplicate_fighters (17/20) [cex_dup_a, cex_dup_b, cex_dup_c] := by
  refine ⟨cex_dedup1, ?_, ?_⟩
  · rw [cex_dedup1, cex_dedup2]
  · rw [cex_dedup1, cex_dedup2]
    intro h
    have hlen := congrArg List.length h
    simp at hlen

lemma process_pairs_rem_mono (fighters : List RawFighter) :
    ∀ (dups : List (Nat × Nat)) (rem : List Nat)
      (mer : List (Nat × RawFighter)),
    rem ⊆ (process_pairs fighters dups rem mer).1 := by
  intro dups
  induction dups with
  | nil => intro rem mer; exact List.Subset.refl rem
  | cons p rest ih =>
      intro rem mer
      obtain ⟨i, j⟩ := p
      rw [process_pairs]
      by_cases h : i ∈ rem ∨ j ∈ rem
      · rw [if_pos h]
        exact ih rem mer
      · rw [if_neg h]
        exact List.Subset.trans (List.subset_cons_self j rem) (ih _ _)

lemma process_pairs_removes (fighters : List RawFighter) :
    ∀ (dups : List (Nat × Nat)) (rem : List Nat)
      (mer : List (Nat × RawFighter)) (i j : Nat),
    (i, j) ∈ dups →
    i ∈ (process_pairs fighters dups rem mer).1
      ∨ j ∈ (process_pairs fighters dups rem mer).1 := by
  intro dups
  induction dups with
  | nil => intro rem mer i j hmem; simp at hmem
  | cons p rest ih =>
      intro rem mer i j hmem
      obtain ⟨a, b⟩ := p
      rw [process_pairs]
      by_cases h : a ∈ rem ∨ b ∈ rem
      · rw [if_pos h]
        rcases List.mem_cons.1 hmem with heq | hmem2
        · obtain ⟨rfl, rfl⟩ := Prod.mk.injEq .. ▸ And.intro
            (congrArg Prod.fst heq) (congrArg Prod.snd heq)
          rcases h with h | h
          · exact Or.inl (process_pairs_rem_mono fighters rest rem mer h)
          · exact Or.inr (process_pairs_rem_mono fighters rest rem mer h)
        · exact ih rem mer i j hmem2
      · rw [if_neg h]
        rcases List.mem_cons.1 hmem with heq | hmem2
        · have hj : j = b := congrArg Prod.snd heq
          subst hj
          exact Or.inr (process_pairs_rem_mono fighters rest _ _
            (List.mem_cons_self _ _))
        · exact ih _ _ i j hmem2

lemma merge_fighters_names (p s : RawFighter)
    (h1 : ¬p.first_name.isEmpty) (h2 : ¬p.last_name.isEmpty) :
    (merge_fighters p s).first_name = p.first_name
    ∧ (merge_fighters p s).last_name = p.last_name := by
  unfold merge_fighters or_str
  constructor
  · show (if p.first_name.isEmpty then _ else _) = _
    rw [if_neg h1]
  · show (if p.last_name.isEmpty then _ else _) = _
    rw [if_neg h2]

lemma mem_find_duplicate_fighters (t : ℚ) (l : List RawFighter)
    (i j : Nat) :
    (i, j) ∈ find_duplicate_fighters t l
      ↔ i < j ∧ j < l.length
        ∧ name_similarity (full_name (l.getD i dflt_fighter))
            (full_name (l.getD j dflt_fighter)) ≥ t := by
  unfold find_duplicate_fighters
  constructor
  · intro h
    rcases List.mem_flatMap.1 h with ⟨a, ha, hinner⟩
    rcases List.mem_filterMap.1 hinner with ⟨b, hb, hfb⟩
    rcases List.mem_filter.1 hb with ⟨hbr, hab⟩
    by_cases hsim : name_similarity (full_name (l.getD a dflt_fighter))
        (full_name (l.getD b dflt_fighter)) ≥ t
    · rw [if_pos hsim] at hfb
      have hai : a = i := congrArg Prod.fst (Option.some.inj hfb)
      have hbj : b = j := congrArg Prod.snd (Option.some.inj hfb)
      subst hai
      subst hbj
      exact ⟨of_decide_eq_true hab, List.mem_range.1 hbr, hsim⟩
    · rw [if_neg hsim] at hfb
      exact absurd hfb (Option.noConfusion)
  · rintro ⟨hij, hjl, hsim⟩
    refine List.mem_flatMap.2 ⟨i, List.mem_range.2 (lt_trans hij hjl), ?_⟩
    refine List.mem_filterMap.2 ⟨j, ?_, ?_⟩
    · exact List.mem_filter.2 ⟨List.mem_range.2 hjl, decide_eq_true hij⟩
    · rw [if_pos hsim]

lemma assoc_get_mem {mer : List (Nat × RawFighter)} {i : Nat}
    {f : RawFighter} (h : assoc_get mer i = some f) : (i, f) ∈ mer := by
  unfold assoc_get at h
  rcases Option.map_eq_some'.1 h with ⟨p, hp, hpf⟩
  have hmem := List.mem_of_find?_eq_some hp
  have hpred := List.find?_some hp
  have h1 : p.1 = i := by simpa using hpred
  have : p = (i, f) := by
    obtain ⟨p1, p2⟩ := p
    simp only at h1 hpf
    rw [h1, hpf]
  rw [← this]
  exact hmem

lemma getD_mem_of_lt {l : List RawFighter} {i : Nat} (h : i < l.length) :
    l.getD i dflt_fighter ∈ l := by
  rw [List.getD_eq_getElem?_getD, List.getElem?_eq_getElem h,
    Option.getD_some]
  exact List.getElem_mem h

lemma process_pairs_mer_names (fighters : List RawFighter)
    (hfn : ∀ f ∈ fighters, ¬f.first_name.isEmpty ∧ ¬f.last_name.isEmpty) :
    ∀ (dups : List (Nat × Nat)) (rem : List Nat)
      (mer : List (Nat × RawFighter)),
    (∀ p ∈ dups, p.1 < fighters.length) →
    (∀ q ∈ mer,
      q.2.first_name = (fighters.getD q.1 dflt_fighter).first_name
      ∧ q.2.last_name = (fighters.getD q.1 dflt_fighter).last_name) →
    ∀ q ∈ (process_pairs fighters dups rem mer).2,
      q.2.first_name = (fighters.getD q.1 dflt_fighter).first_name
      ∧ q.2.last_name = (fighters.getD q.1 dflt_fighter).last_name := by
  intro dups
  induction dups with
  | nil => intro rem mer _ hmer q hq; exact hmer q hq
  | cons p rest ih =>
      intro rem mer hbnd hmer q hq
      obtain ⟨i, j⟩ := p
      rw [process_pairs] at hq
      by_cases hskip : i ∈ rem ∨ j ∈ rem
      · rw [if_pos hskip] at hq
        exact ih rem mer (fun p hp => hbnd p (List.mem_cons_of_mem _ hp))
          hmer q hq
      · rw [if_neg hskip] at hq
        have hi : i < fighters.length :=
          hbnd (i, j) (List.mem_cons_self _ _)
        have hfi := hfn (fighters.getD i dflt_fighter) (getD_mem_of_lt hi)
        have hprim :
            (match assoc_get mer i with
              | some f => f
              | none => fighters.getD i dflt_fighter).first_name
              = (fighters.getD i dflt_fighter).first_name
            ∧ (match assoc_get mer i with
              | some f => f
              | none => fighters.getD i dflt_fighter).last_name
              = (fighters.getD i dflt_fighter).last_name := by
          cases hag : assoc_get mer i with
          | none => exact ⟨rfl, rfl⟩
          | some f => exact hmer (i, f) (assoc_get_mem hag)
        refine ih _ _ (fun p hp => hbnd p (List.mem_cons_of_mem _ hp))
          ?_ q hq
        intro q2 hq2
        rcases List.mem_cons.1 hq2 with rfl | hq2
        · have hne1 : ¬ (match assoc_get mer i with
              | some f => f
              | none => fighters.getD i dflt_fighter).first_name.isEmpty := by
            rw [hprim.1]; exact hfi.1
          have hne2 : ¬ (match assoc_get mer i with
              | some f => f
              | none => fighters.getD i dflt_fighter).last_name.isEmpty := by
            rw [hprim.2]; exact hfi.2
          have hm := merge_fighters_names _ (fighters.getD j dflt_fighter)
            hne1 hne2
          exact ⟨hm.1.trans hprim.1, hm.2.trans hprim.2⟩
        · exact hmer q2 hq2

lemma filterMap_ite_mem (rem : List Nat) (g : Nat → RawFighter)
    (l : List Nat) :
    (l.filterMap fun i => if i ∈ rem then none else some (g i))
      = (l.filter fun i => decide (¬ i ∈ rem)).map g := by
  induction l with
  | nil => rfl
  | cons a as ih =>
      by_cases h : a ∈ rem <;>
        simp [List.filterMap_cons, List.filter_cons, h, ih]

lemma build_result_eq (fighters : List RawFighter) (rem : List Nat)
    (mer : List (Nat × RawFighter)) :
    build_result fighters rem mer
      = ((List.range fighters.length).filter
          (fun i => decide (¬ i ∈ rem))).map (merged_entry fighters mer) := by
  unfold build_result
  exact filterMap_ite_mem rem (merged_entry fighters mer) _

lemma map_getD_range (l : List RawFighter) :
    (List.range l.length).map (fun i => l.getD i dflt_fighter) = l := by
  induction l with
  | nil => rfl
  | cons a as ih =>
      rw [List.length_cons, List.range_succ_eq_map, List.map_cons,
        List.map_map]
      have h : ((fun i => (a :: as).getD i dflt_fighter) ∘ (· + 1))
          = fun i => as.getD i dflt_fighter := by
        funext i
        simp [Function.comp, List.getD_cons_succ]
      rw [h]
      rw [ih]
      rfl

lemma build_result_empty (l : List RawFighter) :
    build_result l [] [] = l := by
  rw [build_result_eq]
  have h1 : ((List.range l.length).filter
      (fun i => decide (¬ i ∈ ([] : List Nat)))) = List.range l.length := by
    simp
  rw [h1]
  have h2 : merged_entry l [] = fun i => l.getD i dflt_fighter := by
    funext i
    rfl
  rw [h2, map_getD_range]

lemma dedup_two_record (t : ℚ) (f1 f2 : RawFighter)
    (h : name_similarity (full_name f1) (full_name f2) ≥ t) :
    deduplicate_fighters t [f1, f2] = [merge_fighters f1 f2] := by
  have hdups : find_duplicate_fighters t [f1, f2] = [(0, 1)] := by
    unfold find_duplicate_fighters
    rw [show ([f1, f2] : List RawFighter).length = 2 from rfl,
        show List.range 2 = [0, 1] from rfl]
    simp only [List.flatMap_cons, List.flatMap_nil, List.filter_cons,
      List.filter_nil, List.filterMap_cons, List.filterMap_nil,
      List.getD_cons_zero, List.getD_cons_succ]
    norm_num
    simp only [List.filterMap_cons, List.filterMap_nil,
      List.getElem?_cons_zero, List.getElem?_cons_succ, Option.getD_some]
    rw [if_pos (ge_iff_le.1 h)]
  have h0 : deduplicate_fighters t [f1, f2]
      = build_result [f1, f2]
          (process_pairs [f1, f2]
            (find_duplicate_fighters t [f1, f2]) [] []).1
          (process_pairs [f1, f2]
            (find_duplicate_fighters t [f1, f2]) [] []).2 := rfl
  rw [h0, hdups]
  rfl

lemma find_dups_result_nil (t : ℚ) (l : List RawFighter)
    (hfn : ∀ f ∈ l, ¬f.first_name.isEmpty ∧ ¬f.last_name.isEmpty) :
    find_duplicate_fighters t
      (build_result l
        (process_pairs l (find_duplicate_fighters t l) [] []).1
        (process_pairs l (find_duplicate_fighters t l) [] []).2) = [] := by
  set dups := find_duplicate_fighters t l with hdups
  set st := process_pairs l dups [] [] with hst
  set kept := (List.range l.length).filter (fun i => decide (¬ i ∈ st.1))
    with hkept
  have hbr : build_result l st.1 st.2 = kept.map (merged_entry l st.2) :=
    build_result_eq l st.1 st.2
  have hbnd : ∀ p ∈ dups, p.1 < l.length := by
    intro p hp
    obtain ⟨i, j⟩ := p
    have hc := (mem_find_duplicate_fighters t l i j).1 hp
    simp only []
    omega
  have hmer := process_pairs_mer_names l hfn dups [] [] hbnd
    (by intro q hq; simp at hq)
  have hentry_names : ∀ i, i < l.length →
      full_name (merged_entry l st.2 i)
        = full_name (l.getD i dflt_fighter) := by
    intro i hi
    unfold merged_entry
    cases hag : assoc_get st.2 i with
    | none => rfl
    | some f =>
        have hf := hmer (i, f) (assoc_get_mem hag)
        unfold full_name
        rw [show ((i, f).2 : RawFighter) = f from rfl] at hf
        rw [hf.1, hf.2]
  have hkept_sorted : List.Pairwise (· < ·) kept :=
    (List.pairwise_lt_range l.length).filter _
  have hkept_mem : ∀ a ∈ kept, a < l.length ∧ a ∉ st.1 := by
    intro a ha
    rcases List.mem_filter.1 ha with ⟨har, hdec⟩
    exact ⟨List.mem_range.1 har, of_decide_eq_true hdec⟩
  have hpw : List.Pairwise (fun a b : Nat =>
      ¬ name_similarity (full_name (l.getD a dflt_fighter))
          (full_name (l.getD b dflt_fighter)) ≥ t) kept := by
    refine List.Pairwise.imp_of_mem ?_ hkept_sorted
    intro a b ha hb hab hsim
    obtain ⟨hal, hanr⟩ := hkept_mem a ha
    obtain ⟨hbl, hbnr⟩ := hkept_mem b hb
    have hmemd : (a, b) ∈ dups :=
      (mem_find_duplicate_fighters t l a b).2 ⟨hab, hbl, hsim⟩
    rcases process_pairs_removes l dups [] [] a b hmemd with hr | hr
    · exact hanr hr
    · exact hbnr hr
  rw [List.eq_nil_iff_forall_not_mem]
  intro p hp
  obtain ⟨i, j⟩ := p
  obtain ⟨hij, hjlen, hsim⟩ :=
    (mem_find_duplicate_fighters t _ i j).1 hp
  have hlen_res : (build_result l st.1 st.2).length = kept.length := by
    rw [hbr, List.length_map]
  have hjk : j < kept.length := by rw [← hlen_res]; exact hjlen
  have hik : i < kept.length := lt_trans hij hjk
  have hgi : (build_result l st.1 st.2).getD i dflt_fighter
      = merged_entry l st.2 (kept.get ⟨i, hik⟩) := by
    rw [hbr, List.getD_eq_getElem?_getD,
      List.getElem?_eq_getElem (by rw [List.length_map]; exact hik),
      Option.getD_some, List.getElem_map]
    rfl
  have hgj : (build_result l st.1 st.2).getD j dflt_fighter
      = merged_entry l st.2 (kept.get ⟨j, hjk⟩) := by
    rw [hbr, List.getD_eq_getElem?_getD,
      List.getElem?_eq_getElem (by rw [List.length_map]; exact hjk),
      Option.getD_some, List.getElem_map]
    rfl
  have hmi : kept.get ⟨i, hik⟩ ∈ kept := List.get_mem kept i hik
  have hmj : kept.get ⟨j, hjk⟩ ∈ kept := List.get_mem kept j hjk
  have hia := (hkept_mem _ hmi).1
  have hja := (hkept_mem _ hmj).1
  rw [hgi, hgj, hentry_names _ hia, hentry_names _ hja] at hsim
  exact (List.pairwise_iff_get.1 hpw ⟨i, hik⟩ ⟨j, hjk⟩ hij) hsim

/-- C6 (amended): (1) deduplicating a two-record list whose full-name
similarity reaches the threshold yields exactly the one merged record;
(2) the merge takes the maximum of the cumulative counters and prefers
the primary's truthy scalar fields (falling back to the secondary);
(3) `deduplicate_fighters` is idempotent on any list whose records all
have non-empty first and last names.  Without that proviso idempotence
fails (see the counterexample): merging can swap in the secondary's
name for an empty-named primary and create a new above-threshold pair
for a later pass. -/
theorem C6_dedup_amended (t : ℚ) :
    (∀ f1 f2 : RawFighter,
      name_similarity (full_name f1) (full_name f2) ≥ t →
      deduplicate_fighters t [f1, f2] = [merge_fighters f1 f2])
    ∧ (∀ f1 f2 : RawFighter,
        (merge_fighters f1 f2).wins = max f1.wins f2.wins
        ∧ (merge_fighters f1 f2).losses = max f1.losses f2.losses
        ∧ (merge_fighters f1 f2).ko_wins = max f1.ko_wins f2.ko_wins
        ∧ (merge_fighters f1 f2).submission_wins
            = max f1.submission_wins f2.submission_wins
        ∧ (¬f1.first_name.isEmpty →
            (merge_fighters f1 f2).first_name = f1.first_name)
        ∧ (f1.nickname = none →
            (merge_fighters f1 f2).nickname = f2.nickname))
    ∧ (∀ l : List RawFighter,
        (∀ f ∈ l, ¬f.first_name.isEmpty ∧ ¬f.last_name.isEmpty) →
        deduplicate_fighters t (deduplicate_fighters t l)
          = deduplicate_fighters t l) := by
  refine ⟨dedup_two_record t, ?_, ?_⟩
  · intro f1 f2
    refine ⟨rfl, rfl, rfl, rfl, ?_, ?_⟩
    · intro h1
      show or_str f1.first_name f2.first_name = f1.first_name
      unfold or_str
      rw [if_neg h1]
    · intro h1
      show or_opt f1.nickname f2.nickname = f2.nickname
      rw [h1]
      rfl
  · intro l hfn
    cases l with
    | nil => rfl
    | cons x xs =>
        have hres : deduplicate_fighters t (x :: xs)
            = build_result (x :: xs)
                (process_pairs (x :: xs)
                  (find_duplicate_fighters t (x :: xs)) [] []).1
                (process_pairs (x :: xs)
                  (find_duplicate_fighters t (x :: xs)) [] []).2 := rfl
        have hd2 := find_dups_result_nil t (x :: xs) hfn
        rw [hres]
        cases hr : build_result (x :: xs)
            (process_pairs (x :: xs)
              (find_duplicate_fighters t (x :: xs)) [] []).1
            (process_pairs (x :: xs)
              (find_duplicate_fighters t (x :: xs)) [] []).2 with
        | nil => rfl
        | cons r rs =>
            have hres2 : deduplicate_fighters t (r :: rs)
                = build_result (r :: rs)
                    (process_pairs (r :: rs)
                      (find_duplicate_fighters t (r :: rs)) [] []).1
                    (process_pairs (r :: rs)
                      (find_duplicate_fighters t (r :: rs)) [] []).2 := rfl
            have hd2r : find_duplicate_fighters t (r :: rs) = [] := by
              rw [← hr]
              exact hd2
            rw [hres2, hd2r]
            exact build_result_empty (r :: rs)

/-- The claim's concrete example records. -/
def cm1 : RawFighter :=
  { first_name := "Conor", last_name := "McGregor", wins := 22 }

/-- Near-identical record ("Mcgregor", different counters). -/
def cm2 : RawFighter :=
  { first_name := "Conor", last_name := "Mcgregor", wins := 26
    nickname := some "Notorious" }

/-- Witness for C6 (amended): "Conor McGregor" / "Conor Mcgregor"
normalize identically (similarity 1.0 ≥ 0.85), dedup yields the single
merged record with the maximum win count, and a second dedup pass on a
list of non-empty-named records is a no-op. -/
theorem C6_dedup_amended_witness :
    deduplicate_fighters (17/20) [cm1, cm2] = [merge_fighters cm1 cm2]
    ∧ (merge_fighters cm1 cm2).wins = 26
    ∧ deduplicate_fighters (17/20) (deduplicate_fighters (17/20) [cm1, cm2])
        = deduplicate_fighters (17/20) [cm1, cm2] := by
  have hsim : name_similarity (full_name cm1) (full_name cm2) ≥ 17/20 := by
    rw [show name_similarity (full_name cm1) (full_name cm2) = 1 from rfl]
    norm_num
  have h := C6_dedup_amended (17/20)
  refine ⟨h.1 cm1 cm2 hsim, ?_, h.2.2 [cm1, cm2] (by decide)⟩
  rw [(h.2.1 cm1 cm2).1]
  rfl

end UFCPred
